import Mathlib

/-!
Shallow embedding of the matrix-view and call-contract layer of the
gonum/lapack repository: the `internal/fortran` layout-conversion engine,
the `cgo` wrapper validation logic, and the `lapack64` convenience wrapper.

Go semantics are modelled as follows.
* A `[]float64` slice is a `Store`: a length together with total contents
  (values outside the written region are whatever the initial function
  says; `make` produces the all-zero store, as Go zero-fills).
* float64 values are modelled by `ℚ`.  This layer only moves values
  bit-for-bit (spec section 4.2: "copies are exact (bit-identical) moves")
  and, in the index-translation paths, adds and subtracts 1 from values
  that hold small integer permutation indices, which is exact in float64.
* `panic` is modelled by `Except.error` carrying the Go panic string.
* Go `int` arithmetic is modelled by `Int` (the checks such as
  `len(a) < (m-1)*lda+n` rely on signed arithmetic at m = 0).
* A Go `for i := a; i < b; i++` loop of writes becomes a fold over
  `irange a b`.
-/

/-- Model of float64 values moved by this layer. -/
abbrev F := ℚ

/-- Model of a Go `[]float64` slice: its length and its contents. -/
structure Store where
  size : Nat
  val : Int → F

/-- A single slice write `s[k] = v` (index arithmetic already done). -/
def Store.set (d : Store) (k : Int) (v : F) : Store :=
  ⟨d.size, fun i => if i = k then v else d.val i⟩

/-- A bounds-checked write, modelling Go's runtime index check for the
direct `work[0] = ...` writes in the cgo wrappers. -/
def Store.setChecked (d : Store) (k : Int) (v : F) : Except String Store :=
  if 0 ≤ k ∧ k < (d.size : Int) then .ok (d.set k v)
  else .error "runtime error: index out of range"

/-- Go `make([]float64, n)`: zero-filled, panics on negative length. -/
def mkSlice (n : Int) : Except String Store :=
  if n < 0 then .error "runtime error: makeslice: len out of range"
  else .ok ⟨n.toNat, fun _ => 0⟩

/-- A sequence of slice writes, executed left to right. -/
def writeList (d : Store) (ws : List (Int × F)) : Store :=
  ws.foldl (fun d w => d.set w.1 w.2) d

/-- The integers of `for i := a; i < b; i++`, in loop order. -/
def irange (a b : Int) : List Int :=
  (List.range (b - a).toNat).map (fun (k : Nat) => a + (k : Int))

theorem mem_irange {a b k : Int} : k ∈ irange a b ↔ a ≤ k ∧ k < b := by
  unfold irange
  constructor
  · intro h
    rcases List.mem_map.mp h with ⟨m, hm, rfl⟩
    rw [List.mem_range] at hm
    omega
  · rintro ⟨h1, h2⟩
    refine List.mem_map.mpr ⟨(k - a).toNat, List.mem_range.mpr (by omega), by omega⟩

theorem irange_nodup (a b : Int) : (irange a b).Nodup := by
  unfold irange
  refine List.Nodup.map ?_ (List.nodup_range _)
  intro x y h
  dsimp only at h
  omega

/-- Frame lemma: a key not written keeps its old value. -/
theorem writeList_notMem (d : Store) (ws : List (Int × F)) (k : Int)
    (h : ∀ w ∈ ws, w.1 ≠ k) : (writeList d ws).val k = d.val k := by
  induction ws generalizing d with
  | nil => rfl
  | cons w t ih =>
    have hw : w.1 ≠ k := h w (List.mem_cons_self w t)
    have := ih (d.set w.1 w.2) (fun x hx => h x (List.mem_cons_of_mem w hx))
    simp only [writeList, List.foldl_cons] at this ⊢
    rw [this]
    simp [Store.set, Ne.symm hw]

/-- Value lemma: with pairwise-distinct keys, a written key holds its value. -/
theorem writeList_mem (d : Store) (ws : List (Int × F)) (k : Int) (v : F)
    (hnd : (ws.map Prod.fst).Nodup) (hmem : (k, v) ∈ ws) :
    (writeList d ws).val k = v := by
  induction ws generalizing d with
  | nil => cases hmem
  | cons w t ih =>
    rw [List.map_cons, List.nodup_cons] at hnd
    rcases List.mem_cons.mp hmem with h | h
    · subst h
      have hnk : ∀ x ∈ t, x.1 ≠ k := by
        intro x hx hxk
        exact hnd.1 (List.mem_map.mpr ⟨x, hx, hxk⟩)
      simp only [writeList, List.foldl_cons]
      have := writeList_notMem (d.set (k, v).1 (k, v).2) t k hnk
      simp only [writeList] at this
      rw [this]
      simp [Store.set]
    · simp only [writeList, List.foldl_cons]
      exact ih (d.set w.1 w.2) hnd.2 h

theorem writeList_size (d : Store) (ws : List (Int × F)) :
    (writeList d ws).size = d.size := by
  induction ws generalizing d with
  | nil => rfl
  | cons w t ih =>
    simp only [writeList, List.foldl_cons] at ih ⊢
    rw [ih]
    rfl

/-- Sequencing of fallible steps: Go panics propagate, otherwise the
computation continues (the explicit form of Except bind). -/
def bindE {β α : Type} (c : Except String β) (f : β → Except String α) :
    Except String α :=
  match c with
  | .error e => .error e
  | .ok s => f s

theorem bindE_ok {β α : Type} {c : Except String β} (f : β → Except String α)
    {s : β} (h : c = .ok s) : bindE c f = f s := by
  rw [h]
  rfl

theorem bindE_error {β α : Type} {c : Except String β} (f : β → Except String α)
    {e : String} (h : c = .error e) : bindE c f = .error e := by
  rw [h]
  rfl

/-- Index pairs of a Go double loop `for i in l { for j in g i { ... } }`. -/
def loopPairs (l : List Int) (g : Int → List Int) : List (Int × Int) :=
  l.flatMap (fun i => (g i).map (fun j => (i, j)))

theorem mem_loopPairs {l : List Int} {g : Int → List Int} {i j : Int} :
    (i, j) ∈ loopPairs l g ↔ i ∈ l ∧ j ∈ g i := by
  rw [loopPairs, List.mem_flatMap]
  constructor
  · rintro ⟨a, ha, hm⟩
    rcases List.mem_map.mp hm with ⟨b, hb, he⟩
    injection he with h1 h2
    subst h1
    subst h2
    exact ⟨ha, hb⟩
  · rintro ⟨hi, hj⟩
    exact ⟨i, hi, List.mem_map.mpr ⟨j, hj, rfl⟩⟩

theorem loopPairs_nodup (l : List Int) (g : Int → List Int) (hl : l.Nodup)
    (hg : ∀ i, (g i).Nodup) : (loopPairs l g).Nodup := by
  rw [loopPairs, List.nodup_flatMap]
  refine ⟨fun i _ => (hg i).map (fun a b h => by injection h), hl.imp ?_⟩
  intro a b hab
  intro x hxa hxb
  rcases List.mem_map.mp hxa with ⟨j1, _, rfl⟩
  rcases List.mem_map.mp hxb with ⟨j2, _, he⟩
  injection he with h1 h2
  exact hab h1.symm

/-- Pairs of `for i := 0; i < r; i++ { for j := 0; j < c; j++ }`. -/
def pairsAll (r c : Int) : List (Int × Int) :=
  loopPairs (irange 0 r) (fun _ => irange 0 c)

/-- Pairs of `for i := 0; i < n; i++ { for j := i; j < n; j++ }`. -/
def pairsUpper (n : Int) : List (Int × Int) :=
  loopPairs (irange 0 n) (fun i => irange i n)

/-- Pairs of `for i := 0; i < n; i++ { for j := 0; j <= i; j++ }`. -/
def pairsLower (n : Int) : List (Int × Int) :=
  loopPairs (irange 0 n) (fun i => irange 0 (i + 1))

theorem mem_pairsAll {r c i j : Int} :
    (i, j) ∈ pairsAll r c ↔ (0 ≤ i ∧ i < r) ∧ (0 ≤ j ∧ j < c) := by
  rw [pairsAll, mem_loopPairs, mem_irange, mem_irange]

theorem mem_pairsUpper {n i j : Int} :
    (i, j) ∈ pairsUpper n ↔ 0 ≤ i ∧ i ≤ j ∧ j < n := by
  rw [pairsUpper, mem_loopPairs, mem_irange, mem_irange]
  omega

theorem mem_pairsLower {n i j : Int} :
    (i, j) ∈ pairsLower n ↔ 0 ≤ j ∧ j ≤ i ∧ i < n := by
  rw [pairsLower, mem_loopPairs, mem_irange, mem_irange]
  omega

theorem pairsAll_nodup (r c : Int) : (pairsAll r c).Nodup :=
  loopPairs_nodup _ _ (irange_nodup 0 r) (fun _ => irange_nodup 0 c)

theorem pairsUpper_nodup (n : Int) : (pairsUpper n).Nodup :=
  loopPairs_nodup _ _ (irange_nodup 0 n) (fun i => irange_nodup i n)

theorem pairsLower_nodup (n : Int) : (pairsLower n).Nodup :=
  loopPairs_nodup _ _ (irange_nodup 0 n) (fun i => irange_nodup 0 (i + 1))

/-- Column-major destination keys `i + j*S` are distinct when `0 ≤ i < S`. -/
theorem keysNodupCol (S : Int) (ps : List (Int × Int)) (hnd : ps.Nodup)
    (hb : ∀ p ∈ ps, 0 ≤ p.1 ∧ p.1 < S) :
    (ps.map (fun p => p.1 + p.2 * S)).Nodup := by
  refine List.Nodup.map_on ?_ hnd
  intro p hp q hq h
  obtain ⟨hp0, hp1⟩ := hb p hp
  obtain ⟨hq0, hq1⟩ := hb q hq
  have hS : 0 < S := lt_of_le_of_lt hp0 hp1
  have e1 : (p.1 + p.2 * S) % S = p.1 := by
    rw [Int.add_mul_emod_self]
    exact Int.emod_eq_of_lt hp0 hp1
  have e2 : (q.1 + q.2 * S) % S = q.1 := by
    rw [Int.add_mul_emod_self]
    exact Int.emod_eq_of_lt hq0 hq1
  have h1 : p.1 = q.1 := by rw [← e1, ← e2, h]
  have h2 : p.2 = q.2 := by
    have hm : p.2 * S = q.2 * S := by omega
    exact mul_right_cancel₀ (ne_of_gt hS) hm
  exact Prod.ext h1 h2

/-- Row-major destination keys `i*S + j` are distinct when `0 ≤ j < S`. -/
theorem keysNodupRow (S : Int) (ps : List (Int × Int)) (hnd : ps.Nodup)
    (hb : ∀ p ∈ ps, 0 ≤ p.2 ∧ p.2 < S) :
    (ps.map (fun p => p.1 * S + p.2)).Nodup := by
  have : (ps.map (fun p => p.1 * S + p.2)) = ps.map (fun p => p.2 + p.1 * S) := by
    refine List.map_congr_left ?_
    intro p _
    ring
  rw [this]
  refine List.Nodup.map_on ?_ hnd
  intro p hp q hq h
  obtain ⟨hp0, hp1⟩ := hb p hp
  obtain ⟨hq0, hq1⟩ := hb q hq
  have hS : 0 < S := lt_of_le_of_lt hp0 hp1
  have e1 : (p.2 + p.1 * S) % S = p.2 := by
    rw [Int.add_mul_emod_self]
    exact Int.emod_eq_of_lt hp0 hp1
  have e2 : (q.2 + q.1 * S) % S = q.2 := by
    rw [Int.add_mul_emod_self]
    exact Int.emod_eq_of_lt hq0 hq1
  have h2 : p.2 = q.2 := by rw [← e1, ← e2, h]
  have h1 : p.1 = q.1 := by
    have hm : p.1 * S = q.1 * S := by omega
    exact mul_right_cancel₀ (ne_of_gt hS) hm
  exact Prod.ext h1 h2

/-- Reading a cell written by a double loop of writes with distinct keys. -/
theorem writes_val (d : Store) (ps : List (Int × Int)) (key : Int × Int → Int)
    (v : Int × Int → F) (hnd : (ps.map key).Nodup) (p : Int × Int) (hp : p ∈ ps) :
    (writeList d (ps.map (fun q => (key q, v q)))).val (key p) = v p := by
  apply writeList_mem
  · rw [List.map_map]
    simpa [Function.comp_def] using hnd
  · exact List.mem_map.mpr ⟨p, hp, rfl⟩

/-- Reading a cell outside the keys of a double loop of writes. -/
theorem writes_frame (d : Store) (ps : List (Int × Int)) (key : Int × Int → Int)
    (v : Int × Int → F) (k : Int) (hk : ∀ p ∈ ps, key p ≠ k) :
    (writeList d (ps.map (fun q => (key q, v q)))).val k = d.val k := by
  apply writeList_notMem
  intro w hw
  rcases List.mem_map.mp hw with ⟨p, hp, rfl⟩
  exact hk p hp

/-- gonum/blas `Uplo`: byte-valued enumerated option (Upper/Lower/All). -/
structure blas.Uplo where
  val : Nat
deriving DecidableEq

def blas.Upper : blas.Uplo := ⟨85⟩

def blas.Lower : blas.Uplo := ⟨76⟩

def blas.All : blas.Uplo := ⟨65⟩

/-- gonum/blas `Transpose`: byte-valued enumerated option. -/
structure blas.Transpose where
  val : Nat
deriving DecidableEq

def blas.NoTrans : blas.Transpose := ⟨110⟩

def blas.Trans : blas.Transpose := ⟨116⟩

def blas.ConjTrans : blas.Transpose := ⟨99⟩

/-- gonum/blas `Diag`: byte-valued enumerated option (Unit/NonUnit). -/
structure blas.Diag where
  val : Nat
deriving DecidableEq

def blas.Unit : blas.Diag := ⟨117⟩

def blas.NonUnit : blas.Diag := ⟨110⟩

/-- gonum/blas `Side`: byte-valued enumerated option (Left/Right). -/
structure blas.Side where
  val : Nat
deriving DecidableEq

def blas.Left : blas.Side := ⟨108⟩

def blas.Right : blas.Side := ⟨114⟩

/-- gonum/lapack `Job` option for balancing routines. -/
structure lapack.Job where
  val : Nat
deriving DecidableEq

def lapack.None : lapack.Job := ⟨78⟩

def lapack.Permute : lapack.Job := ⟨80⟩

def lapack.Scale : lapack.Job := ⟨83⟩

def lapack.PermuteScale : lapack.Job := ⟨66⟩

/-- gonum/lapack `EVSide` option. -/
structure lapack.EVSide where
  val : Nat
deriving DecidableEq

def lapack.LeftEV : lapack.EVSide := ⟨76⟩

def lapack.RightEV : lapack.EVSide := ⟨82⟩

/-- gonum/lapack `SVDJob` option. -/
structure lapack.SVDJob where
  val : Nat
deriving DecidableEq

def lapack.SVDAll : lapack.SVDJob := ⟨65⟩

def lapack.SVDInPlace : lapack.SVDJob := ⟨83⟩

def lapack.SVDOverwrite : lapack.SVDJob := ⟨79⟩

def lapack.SVDNone : lapack.SVDJob := ⟨78⟩

/-- Model of `blas64.General` and `fortran.General`: a strided general matrix view.
The same shape serves the row-major and the column-major type, as in the
source where `type General blas64.General`. -/
structure blas64.General where
  Rows : Int
  Cols : Int
  Stride : Int
  Data : Store

/-- Model of `blas64.Symmetric` and `fortran.Symmetric`. -/
structure blas64.Symmetric where
  N : Int
  Stride : Int
  Data : Store
  Uplo : blas.Uplo

/-- Model of `blas64.Triangular` and `fortran.Triangular`. -/
structure blas64.Triangular where
  N : Int
  Stride : Int
  Data : Store
  Uplo : blas.Uplo
  Diag : blas.Diag

/-- fortran.TransCharacter: FORTRAN character for a transpose option. -/
def TransCharacter (trans : blas.Transpose) : Except String Char :=
  if trans = blas.NoTrans then .ok 'N'
  else if trans = blas.Trans then .ok 'T'
  else if trans = blas.ConjTrans then .ok 'C'
  else .error "fortran: bad BLAS trans"

/-- fortran.UploCharacter: FORTRAN character for an uplo option. -/
def UploCharacter (uplo : blas.Uplo) : Except String Char :=
  if uplo = blas.Upper then .ok 'U'
  else if uplo = blas.Lower then .ok 'L'
  else if uplo = blas.All then .ok 'A'
  else .error "fortran: bad BLAS uplo"

/-- fortran.DiagCharacter: FORTRAN character for a diag option. -/
def DiagCharacter (diag : blas.Diag) : Except String Char :=
  if diag = blas.Unit then .ok 'U'
  else if diag = blas.NonUnit then .ok 'N'
  else .error "fortran: bad BLAS diag"

/-- fortran.SideCharacter: FORTRAN character for a side option. -/
def SideCharacter (side : blas.Side) : Except String Char :=
  if side = blas.Left then .ok 'L'
  else if side = blas.Right then .ok 'R'
  else .error "fortran: bad BLAS side"

/-- Method `(t General).From(a)`: fill the column-major receiver from row-major a. -/
def blas64.General.From (t : blas64.General) (a : blas64.General) : Except String blas64.General :=
  if t.Rows ≠ a.Rows ∨ t.Cols ≠ a.Cols then .error "fortran: mismatched dimension"
  else if (t.Data.size : Int) < (t.Cols - 1) * t.Stride + t.Rows then
    .error "fortran: short data slice"
  else .ok { t with Data := writeList t.Data ((pairsAll a.Rows a.Cols).map
    (fun p => (p.1 + p.2 * t.Stride, a.Data.val (p.1 * a.Stride + p.2)))) }

/-- fortran.NewColMajorGeneralFrom. -/
def NewColMajorGeneralFrom (a : blas64.General) : Except String blas64.General :=
  bindE (mkSlice (a.Rows * a.Cols))
    (fun data => blas64.General.From ⟨a.Rows, a.Cols, a.Rows, data⟩ a)

/-- Method `(a General).To(t)`: fill the row-major t from the column-major receiver. -/
def blas64.General.To (a : blas64.General) (t : blas64.General) : Except String blas64.General :=
  if t.Rows ≠ a.Rows ∨ t.Cols ≠ a.Cols then .error "fortran: mismatched dimension"
  else if (t.Data.size : Int) < (t.Rows - 1) * t.Stride + t.Cols then
    .error "fortran: short data slice"
  else .ok { t with Data := writeList t.Data ((pairsAll a.Cols a.Rows).map
    (fun p => (p.1 + p.2 * t.Stride, a.Data.val (p.1 * a.Stride + p.2)))) }

/-- fortran.NewRowMajorGeneralFrom. -/
def NewRowMajorGeneralFrom (a : blas64.General) : Except String blas64.General :=
  bindE (mkSlice (a.Rows * a.Cols))
    (fun data => blas64.General.To a ⟨a.Rows, a.Cols, a.Cols, data⟩)

/-- fortran.CopyGeneralRowMajor. -/
def CopyGeneralRowMajor (dst src : blas64.General) : Except String blas64.General :=
  if dst.Rows ≠ src.Rows ∨ dst.Cols ≠ src.Cols then
    .error "fortran: mismatched dimension"
  else if (dst.Data.size : Int) < (dst.Rows - 1) * dst.Stride + dst.Cols then
    .error "fortran: short data slice"
  else .ok { dst with Data := writeList dst.Data ((pairsAll src.Rows src.Cols).map
    (fun p => (p.1 * dst.Stride + p.2, src.Data.val (p.1 * src.Stride + p.2)))) }

/-- fortran.CopyGeneralColMajor (outer loop over columns, as in source). -/
def CopyGeneralColMajor (dst src : blas64.General) : Except String blas64.General :=
  if dst.Rows ≠ src.Rows ∨ dst.Cols ≠ src.Cols then
    .error "fortran: mismatched dimension"
  else if (dst.Data.size : Int) < (dst.Cols - 1) * dst.Stride + dst.Rows then
    .error "fortran: short data slice"
  else .ok { dst with Data := writeList dst.Data ((pairsAll src.Cols src.Rows).map
    (fun p => (p.2 + p.1 * dst.Stride, src.Data.val (p.2 + p.1 * src.Stride)))) }

/-- Method `(t Symmetric).From(a)`: no dimension or length check in the source. -/
def blas64.Symmetric.From (t : blas64.Symmetric) (a : blas64.Symmetric) : Except String blas64.Symmetric :=
  if a.Uplo = blas.Upper then
    .ok { t with Data := writeList t.Data ((pairsUpper a.N).map
      (fun p => (p.1 + p.2 * t.Stride, a.Data.val (p.1 * a.Stride + p.2)))) }
  else if a.Uplo = blas.Lower then
    .ok { t with Data := writeList t.Data ((pairsLower a.N).map
      (fun p => (p.1 + p.2 * t.Stride, a.Data.val (p.1 * a.Stride + p.2)))) }
  else .error "fortran: bad BLAS uplo"

/-- fortran.NewColMajorSymmetricFrom. -/
def NewColMajorSymmetricFrom (a : blas64.Symmetric) : Except String blas64.Symmetric :=
  bindE (mkSlice (a.N * a.N))
    (fun data => blas64.Symmetric.From ⟨a.N, a.N, data, a.Uplo⟩ a)

/-- Method `(a Symmetric).To(t)`. -/
def blas64.Symmetric.To (a : blas64.Symmetric) (t : blas64.Symmetric) : Except String blas64.Symmetric :=
  if a.Uplo = blas.Upper then
    .ok { t with Data := writeList t.Data ((pairsUpper a.N).map
      (fun p => (p.1 * t.Stride + p.2, a.Data.val (p.1 + p.2 * a.Stride)))) }
  else if a.Uplo = blas.Lower then
    .ok { t with Data := writeList t.Data ((pairsLower a.N).map
      (fun p => (p.1 * t.Stride + p.2, a.Data.val (p.1 + p.2 * a.Stride)))) }
  else .error "fortran: bad BLAS uplo"

/-- fortran.NewRowMajorSymmetricFrom. -/
def NewRowMajorSymmetricFrom (a : blas64.Symmetric) : Except String blas64.Symmetric :=
  bindE (mkSlice (a.N * a.N))
    (fun data => blas64.Symmetric.To a ⟨a.N, a.N, data, a.Uplo⟩)

/-- fortran.CopySymmetricRowMajor. -/
def CopySymmetricRowMajor (dst src : blas64.Symmetric) : Except String blas64.Symmetric :=
  if dst.N ≠ src.N then .error "fortran: mismatched dimension"
  else if dst.Uplo ≠ src.Uplo then .error "fortran: mismatched BLAS uplo"
  else if (dst.Data.size : Int) < (dst.N - 1) * dst.Stride + dst.N then
    .error "fortran: short data slice"
  else if src.Uplo = blas.Upper then
    .ok { dst with Data := writeList dst.Data ((pairsUpper src.N).map
      (fun p => (p.1 * dst.Stride + p.2, src.Data.val (p.1 * src.Stride + p.2)))) }
  else if src.Uplo = blas.Lower then
    .ok { dst with Data := writeList dst.Data ((pairsLower src.N).map
      (fun p => (p.1 * dst.Stride + p.2, src.Data.val (p.1 * src.Stride + p.2)))) }
  else .error "fortran: bad BLAS uplo"

/-- fortran.CopySymmetricColMajor. -/
def CopySymmetricColMajor (dst src : blas64.Symmetric) : Except String blas64.Symmetric :=
  if dst.N ≠ src.N then .error "fortran: mismatched dimension"
  else if dst.Uplo ≠ src.Uplo then .error "fortran: mismatched BLAS uplo"
  else if (dst.Data.size : Int) < (dst.N - 1) * dst.Stride + dst.N then
    .error "fortran: short data slice"
  else if src.Uplo = blas.Upper then
    .ok { dst with Data := writeList dst.Data ((pairsUpper src.N).map
      (fun p => (p.1 + p.2 * dst.Stride, src.Data.val (p.1 + p.2 * src.Stride)))) }
  else if src.Uplo = blas.Lower then
    .ok { dst with Data := writeList dst.Data ((pairsLower src.N).map
      (fun p => (p.1 + p.2 * dst.Stride, src.Data.val (p.1 + p.2 * src.Stride)))) }
  else .error "fortran: bad BLAS uplo"

/-- Method `(t Triangular).From(a)`: no dimension or length check in the source. -/
def blas64.Triangular.From (t : blas64.Triangular) (a : blas64.Triangular) : Except String blas64.Triangular :=
  if a.Uplo = blas.Upper then
    .ok { t with Data := writeList t.Data ((pairsUpper a.N).map
      (fun p => (p.1 + p.2 * t.Stride, a.Data.val (p.1 * a.Stride + p.2)))) }
  else if a.Uplo = blas.Lower then
    .ok { t with Data := writeList t.Data ((pairsLower a.N).map
      (fun p => (p.1 + p.2 * t.Stride, a.Data.val (p.1 * a.Stride + p.2)))) }
  else if a.Uplo = blas.All then
    .ok { t with Data := writeList t.Data ((pairsAll a.N a.N).map
      (fun p => (p.1 + p.2 * t.Stride, a.Data.val (p.1 * a.Stride + p.2)))) }
  else .error "fortran: bad BLAS uplo"

/-- fortran.NewColMajorTriangularFrom. -/
def NewColMajorTriangularFrom (a : blas64.Triangular) : Except String blas64.Triangular :=
  bindE (mkSlice (a.N * a.N))
    (fun data => blas64.Triangular.From ⟨a.N, a.N, data, a.Uplo, a.Diag⟩ a)

/-- Method `(a Triangular).To(t)`. -/
def blas64.Triangular.To (a : blas64.Triangular) (t : blas64.Triangular) : Except String blas64.Triangular :=
  if a.Uplo = blas.Upper then
    .ok { t with Data := writeList t.Data ((pairsUpper a.N).map
      (fun p => (p.1 * t.Stride + p.2, a.Data.val (p.1 + p.2 * a.Stride)))) }
  else if a.Uplo = blas.Lower then
    .ok { t with Data := writeList t.Data ((pairsLower a.N).map
      (fun p => (p.1 * t.Stride + p.2, a.Data.val (p.1 + p.2 * a.Stride)))) }
  else if a.Uplo = blas.All then
    .ok { t with Data := writeList t.Data ((pairsAll a.N a.N).map
      (fun p => (p.1 * t.Stride + p.2, a.Data.val (p.1 + p.2 * a.Stride)))) }
  else .error "fortran: bad BLAS uplo"

/-- fortran.NewRowMajorTriangularFrom. -/
def NewRowMajorTriangularFrom (a : blas64.Triangular) : Except String blas64.Triangular :=
  bindE (mkSlice (a.N * a.N))
    (fun data => blas64.Triangular.To a ⟨a.N, a.N, data, a.Uplo, a.Diag⟩)

/-- fortran.CopyTriangularRowMajor.  The `Diag` values are checked for
equality but do not alter which cells are copied. -/
def CopyTriangularRowMajor (dst src : blas64.Triangular) : Except String blas64.Triangular :=
  if dst.N ≠ src.N then .error "fortran: mismatched dimension"
  else if dst.Diag ≠ src.Diag then .error "fortran: mismatched BLAS diag"
  else if dst.Uplo ≠ src.Uplo then .error "fortran: mismatched BLAS uplo"
  else if (dst.Data.size : Int) < (dst.N - 1) * dst.Stride + dst.N then
    .error "fortran: short data slice"
  else if src.Uplo = blas.Upper then
    .ok { dst with Data := writeList dst.Data ((pairsUpper src.N).map
      (fun p => (p.1 * dst.Stride + p.2, src.Data.val (p.1 * src.Stride + p.2)))) }
  else if src.Uplo = blas.Lower then
    .ok { dst with Data := writeList dst.Data ((pairsLower src.N).map
      (fun p => (p.1 * dst.Stride + p.2, src.Data.val (p.1 * src.Stride + p.2)))) }
  else if src.Uplo = blas.All then
    .ok { dst with Data := writeList dst.Data ((pairsAll src.N src.N).map
      (fun p => (p.1 * dst.Stride + p.2, src.Data.val (p.1 * src.Stride + p.2)))) }
  else .error "fortran: bad BLAS uplo"

/-- fortran.CopyTriangularColMajor. -/
def CopyTriangularColMajor (dst src : blas64.Triangular) : Except String blas64.Triangular :=
  if dst.N ≠ src.N then .error "fortran: mismatched dimension"
  else if dst.Diag ≠ src.Diag then .error "fortran: mismatched BLAS diag"
  else if dst.Uplo ≠ src.Uplo then .error "fortran: mismatched BLAS uplo"
  else if (dst.Data.size : Int) < (dst.N - 1) * dst.Stride + dst.N then
    .error "fortran: short data slice"
  else if src.Uplo = blas.Upper then
    .ok { dst with Data := writeList dst.Data ((pairsUpper src.N).map
      (fun p => (p.1 + p.2 * dst.Stride, src.Data.val (p.1 + p.2 * src.Stride)))) }
  else if src.Uplo = blas.Lower then
    .ok { dst with Data := writeList dst.Data ((pairsLower src.N).map
      (fun p => (p.1 + p.2 * dst.Stride, src.Data.val (p.1 + p.2 * src.Stride)))) }
  else if src.Uplo = blas.All then
    .ok { dst with Data := writeList dst.Data ((pairsAll src.N src.N).map
      (fun p => (p.1 + p.2 * dst.Stride, src.Data.val (p.1 + p.2 * src.Stride)))) }
  else .error "fortran: bad BLAS uplo"


/-- Model of a Go `[]int` / `[]int32` slice. -/
structure IStore where
  size : Nat
  val : Int → Int

/-- The adapter's 0-based to 1-based index translation (`v + 1`,
cgo/lapack.go:1133 and the ilo/ihi arguments at lapack.go:543, 920). -/
def toOneBased (i : Int) : Int := i + 1

/-- The adapter's 1-based to 0-based index translation (`v - 1`,
cgo/lapack.go:1070, 1101, 491-492). -/
def toZeroBased (i : Int) : Int := i - 1

/-- Loop `for i, v := range s { s[i] = f(v) }`: the whole-slice translation loop
the adapter runs over pivot vectors. -/
def IStore.mapStore (s : IStore) (f : Int → Int) : IStore :=
  ⟨s.size, fun k => if 0 ≤ k ∧ k < (s.size : Int) then f (s.val k) else s.val k⟩

/-- Loop `for j in ks { s[j] += dv }`: the read-modify-write loops Dgebak runs
over the permutation entries of scale (`scale[j]++` / `scale[j]--`). -/
def bumpAll (d : Store) (ks : List Int) (dv : F) : Store :=
  ks.foldl (fun d k => d.set k (d.val k + dv)) d

theorem bumpAll_val (d : Store) (ks : List Int) (dv : F) (hnd : ks.Nodup) (k : Int) :
    (bumpAll d ks dv).val k = d.val k + (if k ∈ ks then dv else 0) := by
  induction ks generalizing d with
  | nil => simp [bumpAll]
  | cons a t ih =>
    rw [List.nodup_cons] at hnd
    simp only [bumpAll, List.foldl_cons] at ih ⊢
    rw [ih (d.set a (d.val a + dv)) hnd.2]
    by_cases hk : k = a
    · subst hk
      simp [Store.set, hnd.1]
    · simp [Store.set, hk, List.mem_cons]

theorem Store.set_val_self (d : Store) (k : Int) (v : F) : (d.set k v).val k = v := by
  simp [Store.set]

theorem Store.set_val_ne (d : Store) (k k' : Int) (v : F) (h : k' ≠ k) :
    (d.set k v).val k' = d.val k' := by
  simp [Store.set, h]

/-- cgo checkMatrix (lapack.go:74). -/
def checkMatrix (m n : Int) (a : Store) (lda : Int) : Except String Unit :=
  if m < 0 then .error "lapack: has negative number of rows"
  else if n < 0 then .error "lapack: has negative number of columns"
  else if lda < n then .error "lapack: stride less than number of columns"
  else if (a.size : Int) < (m - 1) * lda + n then
    .error "lapack: insufficient matrix slice length"
  else .ok ()

/-- Model of the `cgo/lapacke` bindings, a package of this repository that
is not under src/.  Modelled from the spec: the external compiled library
is an out-of-scope collaborator consumed through one signature per routine
(spec sections 1, 4.4, 6); each field returns the slices that routine's
LAPACK contract lets it mutate, plus its boolean status where the binding
returns one.  `dgebak` receives `scale` read-only: per its documented
contract Dgebak only transforms the matrix `v`. -/
structure Lapacke where
  dgebrd : Int → Int → Store → Int → Store → Store → Store → Store → Store → Int →
    (Store × Store × Store × Store × Store × Store)
  dgels : blas.Transpose → Int → Int → Int → Store → Int → Store → Int → Store → Int →
    (Store × Store × Store × Bool)
  dgesvd : lapack.SVDJob → lapack.SVDJob → Int → Int → Store → Int → Store → Store → Int →
    Store → Int → Store → Int → (Store × Store × Store × Store × Store × Bool)
  dgehrd : Int → Int → Int → Store → Int → Store → Store → Int → (Store × Store × Store)
  dpotrf : blas.Uplo → Int → Store → Int → (Store × Bool)
  dtrtrs : blas.Uplo → blas.Transpose → blas.Diag → Int → Int → Store → Int → Store →
    Int → (Store × Bool)
  dgetrf : Int → Int → Store → Int → IStore → (Store × IStore × Bool)
  dgetri : Int → Store → Int → IStore → Store → Int → (Store × Store × Bool)
  dgebak : lapack.Job → blas.Side → Int → Int → Int → (Int → F) → Int → Store → Int → Store

/-- cgo Implementation.Dpotrf (lapack.go:420).  uplo is not validated here:
"ul is checked in lapacke.Dpotrf". -/
def Implementation.Dpotrf (L : Lapacke) (ul : blas.Uplo) (n : Int) (a : Store)
    (lda : Int) : Except String (Store × Bool) :=
  if n < 0 then .error "lapack: n < 0"
  else if lda < n then .error "lapack: index of a out of range"
  else if n = 0 then .ok (a, true)
  else .ok (L.dpotrf ul n a lda)

/-- cgo Implementation.Dgebrd (lapack.go:663).  The matrix and vector
length validation precedes the lwork == -1 query path. -/
def Implementation.Dgebrd (L : Lapacke) (m n : Int) (a : Store) (lda : Int)
    (d e tauQ tauP work : Store) (lwork : Int) :
    Except String (Store × Store × Store × Store × Store × Store) :=
  bindE (checkMatrix m n a lda) (fun _ =>
    let minmn := min m n
    if (d.size : Int) < minmn then .error "lapack: d has insufficient length"
    else if (e.size : Int) < minmn - 1 then .error "lapack: e has insufficient length"
    else if (tauQ.size : Int) < minmn then .error "lapack: tauQ has insufficient length"
    else if (tauP.size : Int) < minmn then .error "lapack: tauP has insufficient length"
    else
      let ws := max m n
      if lwork = -1 then
        bindE (work.setChecked 0 (ws : F)) (fun w => .ok (a, d, e, tauQ, tauP, w))
      else if lwork < ws then .error "lapack: insufficient working memory"
      else if (work.size : Int) < lwork then .error "lapack: insufficient working memory"
      else .ok (L.dgebrd m n a lda d e tauQ tauP work lwork))

/-- cgo Implementation.Dgels (lapack.go:950).  The lwork == -1 query path
runs before any argument validation. -/
def Implementation.Dgels (L : Lapacke) (trans : blas.Transpose) (m n nrhs : Int)
    (a : Store) (lda : Int) (b : Store) (ldb : Int) (work : Store) (lwork : Int) :
    Except String (Store × Store × Store × Bool) :=
  let mn := min m n
  if lwork = -1 then
    bindE (work.setChecked 0 ((mn + max mn nrhs : Int) : F))
      (fun w => .ok (a, b, w, true))
  else
    bindE (checkMatrix m n a lda) (fun _ =>
    bindE (checkMatrix (max m n) nrhs b ldb) (fun _ =>
      if (work.size : Int) < lwork then
        .error "lapack: working array shorter than declared"
      else if lwork < mn + max mn nrhs then
        .error "lapack: insufficient working memory"
      else .ok (L.dgels trans m n nrhs a lda b ldb work lwork)))

/-- cgo Implementation.Dgesvd (lapack.go:1009).  Matrix validation precedes
the lwork == -1 query path. -/
def Implementation.Dgesvd (L : Lapacke) (jobU jobVT : lapack.SVDJob) (m n : Int)
    (a : Store) (lda : Int) (s u : Store) (ldu : Int) (vt : Store) (ldvt : Int)
    (work : Store) (lwork : Int) :
    Except String (Store × Store × Store × Store × Store × Bool) :=
  bindE (checkMatrix m n a lda) (fun _ =>
  bindE (if jobU = lapack.SVDAll then checkMatrix m m u ldu
         else if jobU = lapack.SVDInPlace then checkMatrix m (min m n) u ldu
         else .ok ()) (fun _ =>
  bindE (if jobVT = lapack.SVDAll then checkMatrix n n vt ldvt
         else if jobVT = lapack.SVDInPlace then checkMatrix (min m n) n vt ldvt
         else .ok ()) (fun _ =>
    if jobU = lapack.SVDOverwrite ∧ jobVT = lapack.SVDOverwrite then
      .error "dgesvd: not coded for overwrite"
    else if (s.size : Int) < min m n then .error "lapack: s has insufficient length"
    else if jobU = lapack.SVDOverwrite ∨ jobVT = lapack.SVDOverwrite then
      .error "lapack: SVD not coded to overwrite original matrix"
    else
      let minWork := max (5 * min m n) (3 * min m n + max m n)
      if lwork ≠ -1 ∧ (work.size : Int) < lwork then
        .error "lapack: insufficient working memory"
      else if lwork ≠ -1 ∧ lwork < minWork then
        .error "lapack: insufficient working memory"
      else if lwork = -1 then
        bindE (work.setChecked 0 (minWork : F))
          (fun w => .ok (a, s, u, vt, w, true))
      else .ok (L.dgesvd jobU jobVT m n a lda s u ldu vt ldvt work lwork))))

/-- cgo Implementation.Dgehrd (lapack.go:903).  With lwork == -1 the matrix
checks are skipped and the external library performs the workspace query. -/
def Implementation.Dgehrd (L : Lapacke) (n ilo ihi : Int) (a : Store) (lda : Int)
    (tau work : Store) (lwork : Int) : Except String (Store × Store × Store) :=
  if ilo < 0 ∨ max 0 (n - 1) < ilo then .error "lapack: ilo out of range"
  else if ihi < min ilo (n - 1) ∨ n ≤ ihi then .error "lapack: ihi out of range"
  else if lwork < max 1 n ∧ lwork ≠ -1 then .error "lapack: insufficient working memory"
  else if (work.size : Int) < lwork then
    .error "lapack: working array shorter than declared"
  else
    bindE (if lwork ≠ -1 then
        bindE (checkMatrix n n a lda) (fun _ =>
          if (tau.size : Int) ≠ n - 1 ∧ n > 0 then
            .error "lapack: tau has insufficient length"
          else .ok ())
      else .ok ()) (fun _ =>
      .ok (L.dgehrd n (ilo + 1) (ihi + 1) a lda tau work lwork))

/-- cgo Implementation.Dgetrf (lapack.go:1092): pivot indices are
translated back to 0-based after the external call. -/
def Implementation.Dgetrf (L : Lapacke) (m n : Int) (a : Store) (lda : Int)
    (ipiv : IStore) : Except String (Store × IStore × Bool) :=
  let mn := min m n
  bindE (checkMatrix m n a lda) (fun _ =>
    if (ipiv.size : Int) < mn then .error "lapack: insufficient permutation length"
    else
      let ipiv32 : IStore := ⟨ipiv.size, fun _ => 0⟩
      let r := L.dgetrf m n a lda ipiv32
      .ok (r.1, IStore.mapStore r.2.1 toZeroBased, r.2.2))

/-- cgo Implementation.Dgetri (lapack.go:1116): pivot indices are
translated to 1-based before the external call. -/
def Implementation.Dgetri (L : Lapacke) (n : Int) (a : Store) (lda : Int)
    (ipiv : IStore) (work : Store) (lwork : Int) :
    Except String (Store × Store × Bool) :=
  bindE (checkMatrix n n a lda) (fun _ =>
    if (ipiv.size : Int) < n then .error "lapack: insufficient permutation length"
    else if lwork = -1 then
      bindE (work.setChecked 0 (n : F)) (fun w => .ok (a, w, true))
    else if lwork < n then .error "lapack: insufficient working memory"
    else if (work.size : Int) < lwork then .error "lapack: insufficient working memory"
    else
      let ipiv32 := IStore.mapStore ipiv toOneBased
      .ok (L.dgetri n a lda ipiv32 work lwork))

/-- cgo Implementation.Dtrtrs (lapack.go:1771): no validation of any
argument, everything is forwarded to the external library. -/
def Implementation.Dtrtrs (L : Lapacke) (uplo : blas.Uplo) (trans : blas.Transpose)
    (diag : blas.Diag) (n nrhs : Int) (a : Store) (lda : Int) (b : Store) (ldb : Int) :
    Except String (Store × Bool) :=
  .ok (L.dtrtrs uplo trans diag n nrhs a lda b ldb)

/-- cgo Implementation.Dgebak (lapack.go:513): permutation entries of scale
are incremented to 1-based before the external call and decremented back
after it. -/
def Implementation.Dgebak (L : Lapacke) (job : lapack.Job) (side : lapack.EVSide)
    (n ilo ihi : Int) (scale : Store) (m : Int) (v : Store) (ldv : Int) :
    Except String (Store × Store) :=
  if ¬(job = lapack.None ∨ job = lapack.Permute ∨ job = lapack.Scale ∨
       job = lapack.PermuteScale) then .error "lapack: bad Job"
  else if ¬(side = lapack.LeftEV ∨ side = lapack.RightEV) then .error "lapack: bad side"
  else
    let bside := if side = lapack.LeftEV then blas.Left else blas.Right
    bindE (checkMatrix n m v ldv) (fun _ =>
      if ilo < 0 ∨ max 0 (n - 1) < ilo then .error "lapack: ilo out of range"
      else if ihi < min ilo (n - 1) ∨ n ≤ ihi then .error "lapack: ihi out of range"
      else
        let s1 := bumpAll scale (irange 0 ilo) 1
        let s2 := bumpAll s1 (irange (ihi + 1) n) 1
        let v2 := L.dgebak job bside n (ilo + 1) (ihi + 1) s2.val m v ldv
        let s3 := bumpAll s2 (irange 0 ilo) (-1)
        let s4 := bumpAll s3 (irange (ihi + 1) n) (-1)
        .ok (s4, v2))

/-- The lapack.Float64 backend interface as used by lapack64.Potrf; the
Go `Dpotrf(ul, n, a, lda) bool` mutates a in place, modelled by returning
the mutated storage alongside the status. -/
structure lapackFloat64 where
  Dpotrf : blas.Uplo → Int → Store → Int → (Store × Bool)

/-- lapack64.Potrf (src/unnamed/part_000:41): the returned Triangular
reuses the input's storage with the same N, Stride and Uplo, and
Diag = NonUnit. -/
def Potrf (l64 : lapackFloat64) (a : blas64.Symmetric) : blas64.Triangular × Bool :=
  let r := l64.Dpotrf a.Uplo a.N a.Data a.Stride
  (⟨a.N, a.Stride, r.1, a.Uplo, blas.NonUnit⟩, r.2)

/-- Modelled from the spec: a concrete stand-in for the external library
bindings (package cgo/lapacke, not under src/), used only to instantiate
the wrappers at concrete inputs.  The external convention reports invalid
arguments and singularity through status codes rather than panics (spec
sections 6, 7), so `dtrtrs` reports failure and leaves its slices alone;
`dgehrd` implements the documented workspace query (lwork == -1 stores
only the optimal workspace size in work[0]); no theorem below depends on
numerically computed values. -/
def modelLapacke : Lapacke where
  dgebrd := fun _ _ a _ d e tauQ tauP work _ => (a, d, e, tauQ, tauP, work)
  dgels := fun _ _ _ _ a _ b _ work _ => (a, b, work, true)
  dgesvd := fun _ _ _ _ a _ s u _ vt _ work _ => (a, s, u, vt, work, true)
  dgehrd := fun n _ _ a _ tau work lwork =>
    if lwork = -1 then (a, tau, work.set 0 (n : F)) else (a, tau, work)
  dpotrf := fun _ _ a _ => (a, true)
  dtrtrs := fun _ _ _ _ _ _ _ b _ => (b, false)
  dgetrf := fun _ _ a _ p => (a, p, true)
  dgetri := fun _ a _ _ w _ => (a, w, true)
  dgebak := fun _ _ _ _ _ _ _ v _ => v

theorem dgels_query (L : Lapacke) (trans : blas.Transpose) (m n nrhs : Int)
    (a : Store) (lda : Int) (b : Store) (ldb : Int) (work : Store)
    (hw : 0 < work.size) :
    Implementation.Dgels L trans m n nrhs a lda b ldb work (-1) =
      .ok (a, b, work.set 0 ((min m n + max (min m n) nrhs : Int) : F), true) := by
  have hcond : (0 : Int) ≤ 0 ∧ (0 : Int) < (work.size : Int) := by omega
  have hsc : work.setChecked 0 ((min m n + max (min m n) nrhs : Int) : F) =
      .ok (work.set 0 ((min m n + max (min m n) nrhs : Int) : F)) := by
    unfold Store.setChecked
    rw [if_pos hcond]
  simp only [Implementation.Dgels]
  rw [if_pos trivial, bindE_ok _ hsc]

theorem dgebrd_query (L : Lapacke) (m n : Int) (a : Store) (lda : Int)
    (d e tauQ tauP work : Store) (hchk : checkMatrix m n a lda = .ok ())
    (hd : min m n ≤ (d.size : Int)) (he : min m n - 1 ≤ (e.size : Int))
    (htq : min m n ≤ (tauQ.size : Int)) (htp : min m n ≤ (tauP.size : Int))
    (hw : 0 < work.size) :
    Implementation.Dgebrd L m n a lda d e tauQ tauP work (-1) =
      .ok (a, d, e, tauQ, tauP, work.set 0 ((max m n : Int) : F)) := by
  have hcond : (0 : Int) ≤ 0 ∧ (0 : Int) < (work.size : Int) := by omega
  have hsc : work.setChecked 0 ((max m n : Int) : F) =
      .ok (work.set 0 ((max m n : Int) : F)) := by
    unfold Store.setChecked
    rw [if_pos hcond]
  simp only [Implementation.Dgebrd]
  rw [bindE_ok _ hchk]
  rw [if_neg (by omega), if_neg (by omega), if_neg (by omega), if_neg (by omega),
    if_pos trivial, bindE_ok _ hsc]

theorem dgebrd_query_validates (L : Lapacke) (m n : Int) (a : Store) (lda : Int)
    (d e tauQ tauP work : Store) (lwork : Int) (hm : 0 ≤ m) (hn : 0 ≤ n)
    (hlda : lda < n) :
    Implementation.Dgebrd L m n a lda d e tauQ tauP work lwork =
      .error "lapack: stride less than number of columns" := by
  have hchk : checkMatrix m n a lda = .error "lapack: stride less than number of columns" := by
    unfold checkMatrix
    rw [if_neg (by omega), if_neg (by omega), if_pos hlda]
  simp only [Implementation.Dgebrd]
  rw [bindE_error _ hchk]

theorem dgesvd_query (L : Lapacke) (m n : Int) (a : Store) (lda : Int)
    (s u : Store) (ldu : Int) (vt : Store) (ldvt : Int) (work : Store)
    (hchk : checkMatrix m n a lda = .ok ())
    (hs : min m n ≤ (s.size : Int)) (hw : 0 < work.size) :
    Implementation.Dgesvd L lapack.SVDNone lapack.SVDNone m n a lda s u ldu vt ldvt
        work (-1) =
      .ok (a, s, u, vt,
        work.set 0 ((max (5 * min m n) (3 * min m n + max m n) : Int) : F), true) := by
  have hcond : (0 : Int) ≤ 0 ∧ (0 : Int) < (work.size : Int) := by omega
  have hsc : work.setChecked 0 ((max (5 * min m n) (3 * min m n + max m n) : Int) : F) =
      .ok (work.set 0 ((max (5 * min m n) (3 * min m n + max m n) : Int) : F)) := by
    unfold Store.setChecked
    rw [if_pos hcond]
  simp only [Implementation.Dgesvd]
  rw [bindE_ok _ hchk]
  rw [bindE_ok _ (by rw [if_neg (by decide), if_neg (by decide)])]
  rw [bindE_ok _ (by rw [if_neg (by decide), if_neg (by decide)])]
  rw [if_neg (by decide), if_neg (by omega), if_neg (by decide),
    if_neg (fun h => h.1 rfl), if_neg (fun h => h.1 rfl), if_pos trivial, bindE_ok _ hsc]

/-- Claim C1 counterexample: Dgebrd called with the workspace-query
sentinel lwork == -1 and a malformed matrix descriptor (lda = 1 < n = 2)
panics in matrix validation instead of writing the minimum workspace into
work[0] and returning with success — so the query path does validate
matrix argument sizes, contrary to the claim. -/
theorem C1_counterexample :
    Implementation.Dgebrd modelLapacke 2 2 ⟨4, fun _ => 0⟩ 1 ⟨2, fun _ => 0⟩
      ⟨1, fun _ => 0⟩ ⟨2, fun _ => 0⟩ ⟨2, fun _ => 0⟩ ⟨1, fun _ => 0⟩ (-1) =
    .error "lapack: stride less than number of columns" := by
  exact dgebrd_query_validates modelLapacke 2 2 _ 1 _ _ _ _ _ (-1)
    (by omega) (by omega) (by omega)

/-- Claim C1 (amended): with lwork == -1 the wrapped operations write the
minimum recommended workspace into work[0] and return with success without
invoking the backend, and Dgels does so before any validation of matrix
sizes; but Dgebrd and Dgesvd validate matrix and vector arguments first
and panic on malformed sizes even when lwork == -1. -/
theorem C1_workspace_query :
    (∀ (L : Lapacke) (trans : blas.Transpose) (m n nrhs : Int) (a : Store) (lda : Int)
        (b : Store) (ldb : Int) (work : Store), 0 < work.size →
      Implementation.Dgels L trans m n nrhs a lda b ldb work (-1) =
        .ok (a, b, work.set 0 ((min m n + max (min m n) nrhs : Int) : F), true)) ∧
    (∀ (L : Lapacke) (m n : Int) (a : Store) (lda : Int) (d e tauQ tauP work : Store),
      checkMatrix m n a lda = .ok () →
      min m n ≤ (d.size : Int) → min m n - 1 ≤ (e.size : Int) →
      min m n ≤ (tauQ.size : Int) → min m n ≤ (tauP.size : Int) → 0 < work.size →
      Implementation.Dgebrd L m n a lda d e tauQ tauP work (-1) =
        .ok (a, d, e, tauQ, tauP, work.set 0 ((max m n : Int) : F))) ∧
    (∀ (L : Lapacke) (m n : Int) (a : Store) (lda : Int) (d e tauQ tauP work : Store),
      0 ≤ m → 0 ≤ n → lda < n →
      Implementation.Dgebrd L m n a lda d e tauQ tauP work (-1) =
        .error "lapack: stride less than number of columns") ∧
    (∀ (L : Lapacke) (m n : Int) (a : Store) (lda : Int) (s u : Store) (ldu : Int)
        (vt : Store) (ldvt : Int) (work : Store),
      checkMatrix m n a lda = .ok () → min m n ≤ (s.size : Int) → 0 < work.size →
      Implementation.Dgesvd L lapack.SVDNone lapack.SVDNone m n a lda s u ldu vt ldvt
          work (-1) =
        .ok (a, s, u, vt,
          work.set 0 ((max (5 * min m n) (3 * min m n + max m n) : Int) : F), true)) := by
  refine ⟨?_, ?_, ?_, ?_⟩
  · intro L trans m n nrhs a lda b ldb work hw
    exact dgels_query L trans m n nrhs a lda b ldb work hw
  · intro L m n a lda d e tauQ tauP work hchk hd he htq htp hw
    exact dgebrd_query L m n a lda d e tauQ tauP work hchk hd he htq htp hw
  · intro L m n a lda d e tauQ tauP work hm hn hlda
    exact dgebrd_query_validates L m n a lda d e tauQ tauP work (-1) hm hn hlda
  · intro L m n a lda s u ldu vt ldvt work hchk hs hw
    exact dgesvd_query L m n a lda s u ldu vt ldvt work hchk hs hw

/-- Witness for C1: the amended theorem applied at concrete inputs. -/
theorem C1_workspace_query_witness :
    Implementation.Dgels modelLapacke blas.NoTrans 2 2 1 ⟨4, fun _ => 0⟩ 2
        ⟨2, fun _ => 0⟩ 1 ⟨1, fun _ => 0⟩ (-1) =
      .ok (⟨4, fun _ => 0⟩, ⟨2, fun _ => 0⟩,
        Store.set ⟨1, fun _ => 0⟩ 0 ((min 2 2 + max (min 2 2) 1 : Int) : F), true) ∧
    Implementation.Dgebrd modelLapacke 2 2 ⟨4, fun _ => 0⟩ 2 ⟨2, fun _ => 0⟩
        ⟨1, fun _ => 0⟩ ⟨2, fun _ => 0⟩ ⟨2, fun _ => 0⟩ ⟨1, fun _ => 0⟩ (-1) =
      .ok (⟨4, fun _ => 0⟩, ⟨2, fun _ => 0⟩, ⟨1, fun _ => 0⟩, ⟨2, fun _ => 0⟩,
        ⟨2, fun _ => 0⟩, Store.set ⟨1, fun _ => 0⟩ 0 ((max 2 2 : Int) : F)) ∧
    Implementation.Dgesvd modelLapacke lapack.SVDNone lapack.SVDNone 2 2
        ⟨4, fun _ => 0⟩ 2 ⟨2, fun _ => 0⟩ ⟨1, fun _ => 0⟩ 1 ⟨1, fun _ => 0⟩ 1
        ⟨1, fun _ => 0⟩ (-1) =
      .ok (⟨4, fun _ => 0⟩, ⟨2, fun _ => 0⟩, ⟨1, fun _ => 0⟩, ⟨1, fun _ => 0⟩,
        Store.set ⟨1, fun _ => 0⟩ 0
          ((max (5 * min 2 2) (3 * min 2 2 + max 2 2) : Int) : F), true) := by
  refine ⟨?_, ?_, ?_⟩
  · exact C1_workspace_query.1 modelLapacke blas.NoTrans 2 2 1 _ 2 _ 1 _ (by decide)
  · exact C1_workspace_query.2.1 modelLapacke 2 2 _ 2 _ _ _ _ _ rfl
      (by decide) (by decide) (by decide) (by decide) (by decide)
  · exact C1_workspace_query.2.2.2 modelLapacke 2 2 _ 2 _ _ 1 _ 1 _ rfl
      (by decide) (by decide)

/-- Claim C4: a workspace-size query (lwork == -1) mutates no matrix or
vector argument and always writes the same minimum-workspace value into
work[0] for the same dimension arguments.  For Dgels this is the literal
formula min(m,n) + max(min(m,n), nrhs) computed before any other work; for
Dgehrd the wrapper forwards the query to the external library, which per
its documented contract stores only the optimal workspace size in work[0]
as a function of the (translated) dimension arguments. -/
theorem C4_query_idempotent :
    (∀ (L : Lapacke) (trans : blas.Transpose) (m n nrhs : Int) (a : Store) (lda : Int)
        (b : Store) (ldb : Int) (work : Store), 0 < work.size →
      Implementation.Dgels L trans m n nrhs a lda b ldb work (-1) =
        .ok (a, b, work.set 0 ((min m n + max (min m n) nrhs : Int) : F), true)) ∧
    (∀ (optv : Int → Int → Int → F) (L : Lapacke),
      (∀ (n i h : Int) (a : Store) (lda : Int) (tau work : Store),
        L.dgehrd n i h a lda tau work (-1) = (a, tau, work.set 0 (optv n i h))) →
      ∀ (n ilo ihi : Int) (a : Store) (lda : Int) (tau work : Store),
        0 ≤ ilo ∧ ilo ≤ max 0 (n - 1) → min ilo (n - 1) ≤ ihi ∧ ihi < n →
        Implementation.Dgehrd L n ilo ihi a lda tau work (-1) =
          .ok (a, tau, work.set 0 (optv n (ilo + 1) (ihi + 1)))) := by
  constructor
  · intro L trans m n nrhs a lda b ldb work hw
    exact dgels_query L trans m n nrhs a lda b ldb work hw
  · intro optv L hq n ilo ihi a lda tau work hilo hihi
    unfold Implementation.Dgehrd
    rw [if_neg (by omega), if_neg (by omega), if_neg (fun h => h.2 rfl),
      if_neg (by omega)]
    rw [bindE_ok _ (by rw [if_neg (fun h => h rfl)])]
    rw [hq]

/-- Witness for C4: the theorem applied at concrete inputs, with the
model backend realising the documented external query contract. -/
theorem C4_query_idempotent_witness :
    Implementation.Dgels modelLapacke blas.NoTrans 3 2 1 ⟨6, fun _ => 0⟩ 2
        ⟨3, fun _ => 0⟩ 1 ⟨1, fun _ => 0⟩ (-1) =
      .ok (⟨6, fun _ => 0⟩, ⟨3, fun _ => 0⟩,
        Store.set ⟨1, fun _ => 0⟩ 0 ((min 3 2 + max (min 3 2) 1 : Int) : F), true) ∧
    Implementation.Dgehrd modelLapacke 3 0 2 ⟨9, fun _ => 0⟩ 3 ⟨2, fun _ => 0⟩
        ⟨1, fun _ => 0⟩ (-1) =
      .ok (⟨9, fun _ => 0⟩, ⟨2, fun _ => 0⟩, Store.set ⟨1, fun _ => 0⟩ 0 ((3 : Int) : F)) := by
  constructor
  · exact C4_query_idempotent.1 modelLapacke blas.NoTrans 3 2 1 _ 2 _ 1 _ (by decide)
  · exact C4_query_idempotent.2 (fun n _ _ => (n : F)) modelLapacke
      (fun n i h a lda tau work => rfl) 3 0 2 _ 3 _ _ (by omega) (by omega)

/-- Claim C5: the adapter's 0-based/1-based index translation is
symmetric: translating forward then backward is the identity, both on a
single pivot or block-boundary index and pointwise on a whole translated
pivot vector, as used by Dgetri (forward) and Dgetrf/Dgebal (backward). -/
theorem C5_index_translation :
    (∀ i : Int, toZeroBased (toOneBased i) = i) ∧
    (∀ (s : IStore) (k : Int),
      ((s.mapStore toOneBased).mapStore toZeroBased).val k = s.val k) := by
  constructor
  · intro i
    simp [toOneBased, toZeroBased]
  · intro s k
    by_cases h : 0 ≤ k ∧ k < (s.size : Int)
    · simp [IStore.mapStore, h, toOneBased, toZeroBased]
    · simp [IStore.mapStore, h]

/-- Claim C7: for every symmetric input a and any backend, Potrf returns a
Triangular descriptor with the same N, Stride and Uplo as a, with
Diag = NonUnit, and whose Data is exactly the backend-mutated storage of
a.Data (shared, not copied), along with the backend's status. -/
theorem C7_potrf_aliasing (l64 : lapackFloat64) (a : blas64.Symmetric) :
    (Potrf l64 a).1.N = a.N ∧
    (Potrf l64 a).1.Stride = a.Stride ∧
    (Potrf l64 a).1.Uplo = a.Uplo ∧
    (Potrf l64 a).1.Diag = blas.NonUnit ∧
    (Potrf l64 a).1.Data = (l64.Dpotrf a.Uplo a.N a.Data a.Stride).1 ∧
    (Potrf l64 a).2 = (l64.Dpotrf a.Uplo a.N a.Data a.Stride).2 :=
  ⟨rfl, rfl, rfl, rfl, rfl, rfl⟩

/-- Claim C6 counterexample: Dtrtrs receives the enumerated options uplo,
trans and diag but performs no validation: called with an out-of-set uplo
(and trans and diag) it does not panic, it returns the external library's
status. -/
theorem C6_counterexample :
    Implementation.Dtrtrs modelLapacke ⟨0⟩ ⟨0⟩ ⟨0⟩ 2 1 ⟨4, fun _ => 0⟩ 2
      ⟨2, fun _ => 0⟩ 1 = .ok (⟨2, fun _ => 0⟩, false) := rfl

/-- Claim C6 (amended): the fortran option translators validate their
enumerated argument and fail fast on every out-of-set value; but Dtrtrs
performs no option validation: for every backend and all arguments,
including out-of-set option values, it returns the external status without
panicking. -/
theorem C6_option_validation (t : blas.Transpose) (u : blas.Uplo) (dg : blas.Diag)
    (sd : blas.Side)
    (ht : t ≠ blas.NoTrans ∧ t ≠ blas.Trans ∧ t ≠ blas.ConjTrans)
    (hu : u ≠ blas.Upper ∧ u ≠ blas.Lower ∧ u ≠ blas.All)
    (hd : dg ≠ blas.Unit ∧ dg ≠ blas.NonUnit)
    (hs : sd ≠ blas.Left ∧ sd ≠ blas.Right) :
    TransCharacter t = .error "fortran: bad BLAS trans" ∧
    UploCharacter u = .error "fortran: bad BLAS uplo" ∧
    DiagCharacter dg = .error "fortran: bad BLAS diag" ∧
    SideCharacter sd = .error "fortran: bad BLAS side" ∧
    (∀ (L : Lapacke) (n nrhs : Int) (a : Store) (lda : Int) (b : Store) (ldb : Int),
      Implementation.Dtrtrs L u t dg n nrhs a lda b ldb =
        .ok (L.dtrtrs u t dg n nrhs a lda b ldb)) := by
  refine ⟨?_, ?_, ?_, ?_, fun L n nrhs a lda b ldb => rfl⟩
  · unfold TransCharacter
    rw [if_neg ht.1, if_neg ht.2.1, if_neg ht.2.2]
  · unfold UploCharacter
    rw [if_neg hu.1, if_neg hu.2.1, if_neg hu.2.2]
  · unfold DiagCharacter
    rw [if_neg hd.1, if_neg hd.2]
  · unfold SideCharacter
    rw [if_neg hs.1, if_neg hs.2]

/-- Witness for C6: the amended theorem applied at an out-of-set byte. -/
theorem C6_option_validation_witness :
    TransCharacter ⟨0⟩ = .error "fortran: bad BLAS trans" ∧
    UploCharacter ⟨0⟩ = .error "fortran: bad BLAS uplo" ∧
    DiagCharacter ⟨0⟩ = .error "fortran: bad BLAS diag" ∧
    SideCharacter ⟨0⟩ = .error "fortran: bad BLAS side" ∧
    Implementation.Dtrtrs modelLapacke ⟨0⟩ ⟨0⟩ ⟨0⟩ 1 1 ⟨1, fun _ => 0⟩ 1
        ⟨1, fun _ => 0⟩ 1 =
      .ok (modelLapacke.dtrtrs ⟨0⟩ ⟨0⟩ ⟨0⟩ 1 1 ⟨1, fun _ => 0⟩ 1 ⟨1, fun _ => 0⟩ 1) := by
  obtain ⟨h1, h2, h3, h4, h5⟩ := C6_option_validation ⟨0⟩ ⟨0⟩ ⟨0⟩ ⟨0⟩
    (by refine ⟨?_, ?_, ?_⟩ <;> decide) (by refine ⟨?_, ?_, ?_⟩ <;> decide)
    (by constructor <;> decide) (by constructor <;> decide)
  exact ⟨h1, h2, h3, h4, h5 modelLapacke 1 1 ⟨1, fun _ => 0⟩ 1 ⟨1, fun _ => 0⟩ 1⟩

/-- Claim C10: Dgebak returns the scale slice unchanged: the permutation
entries scale[0:ilo] and scale[ihi+1:n] are incremented before the
external call and decremented back after it, so on every valid input the
net effect on scale is the identity. -/
theorem C10_dgebak_scale (L : Lapacke) (job : lapack.Job) (side : lapack.EVSide)
    (n ilo ihi : Int) (scale : Store) (m : Int) (v : Store) (ldv : Int)
    (hjob : job = lapack.None ∨ job = lapack.Permute ∨ job = lapack.Scale ∨
      job = lapack.PermuteScale)
    (hside : side = lapack.LeftEV ∨ side = lapack.RightEV)
    (hchk : checkMatrix n m v ldv = .ok ())
    (hilo : 0 ≤ ilo ∧ ilo ≤ max 0 (n - 1)) (hihi : min ilo (n - 1) ≤ ihi ∧ ihi < n) :
    ∃ sOut vOut, Implementation.Dgebak L job side n ilo ihi scale m v ldv =
        .ok (sOut, vOut) ∧ ∀ k, sOut.val k = scale.val k := by
  unfold Implementation.Dgebak
  rw [if_neg (not_not_intro hjob), if_neg (not_not_intro hside)]
  rw [bindE_ok _ hchk]
  rw [if_neg (by omega), if_neg (by omega)]
  refine ⟨_, _, rfl, ?_⟩
  intro k
  rw [bumpAll_val _ _ _ (irange_nodup (ihi + 1) n) k,
    bumpAll_val _ _ _ (irange_nodup 0 ilo) k,
    bumpAll_val _ _ _ (irange_nodup (ihi + 1) n) k,
    bumpAll_val _ _ _ (irange_nodup 0 ilo) k]
  by_cases h1 : k ∈ irange 0 ilo <;> by_cases h2 : k ∈ irange (ihi + 1) n <;>
    simp [h1, h2]

/-- Witness for C10: the theorem applied at n = 3, ilo = ihi = 1. -/
theorem C10_dgebak_scale_witness :
    ∃ sOut vOut,
      Implementation.Dgebak modelLapacke lapack.Permute lapack.LeftEV 3 1 1
          ⟨3, fun _ => 2⟩ 1 ⟨3, fun _ => 0⟩ 1 = .ok (sOut, vOut) ∧
      sOut.val 0 = 2 ∧ sOut.val 2 = 2 := by
  obtain ⟨sOut, vOut, he, hk⟩ := C10_dgebak_scale modelLapacke lapack.Permute
    lapack.LeftEV 3 1 1 ⟨3, fun _ => 2⟩ 1 ⟨3, fun _ => 0⟩ 1
    (by right; left; rfl) (by left; rfl) rfl (by omega) (by omega)
  exact ⟨sOut, vOut, he, hk 0, hk 2⟩

/-- Claim C9 counterexample: with N = 1 an operation is not a no-op: the
symmetric copy writes the single diagonal element, replacing the
destination's prior value 7 with the source value 5. -/
theorem C9_counterexample :
    ∃ res, CopySymmetricRowMajor ⟨1, 1, ⟨1, fun _ => 7⟩, blas.Upper⟩
        ⟨1, 1, ⟨1, fun _ => 5⟩, blas.Upper⟩ = .ok res ∧
      res.Data.val 0 = 5 ∧ (5 : F) ≠ 7 := by
  refine ⟨_, rfl, rfl, by norm_num⟩

/-- Claim C9 (amended): N×N descriptors with N = 0 or N = 1 are well-formed
and accepted without panic.  For N = 0 operations are no-ops returning
success: the symmetric copy leaves every destination cell unchanged and
Dpotrf returns true without consulting the backend.  For N = 1 operations
succeed but perform their single-element work: the symmetric copy writes
the diagonal element and Dpotrf invokes the backend. -/
theorem C9_small_n :
    (∀ dst src : blas64.Symmetric, dst.N = 0 → src.N = 0 →
      dst.Uplo = src.Uplo → (src.Uplo = blas.Upper ∨ src.Uplo = blas.Lower) →
      0 ≤ dst.Stride →
      ∃ res, CopySymmetricRowMajor dst src = .ok res ∧
        ∀ k, res.Data.val k = dst.Data.val k) ∧
    (∀ (L : Lapacke) (ul : blas.Uplo) (a : Store) (lda : Int), 0 ≤ lda →
      Implementation.Dpotrf L ul 0 a lda = .ok (a, true)) ∧
    (∀ (L : Lapacke) (ul : blas.Uplo) (a : Store) (lda : Int), 1 ≤ lda →
      Implementation.Dpotrf L ul 1 a lda = .ok (L.dpotrf ul 1 a lda)) ∧
    (∀ dst src : blas64.Symmetric, dst.N = 1 → src.N = 1 →
      dst.Uplo = src.Uplo → src.Uplo = blas.Upper → 1 ≤ (dst.Data.size : Int) →
      ∃ res, CopySymmetricRowMajor dst src = .ok res ∧
        res.Data.val 0 = src.Data.val 0) := by
  refine ⟨?_, ?_, ?_, ?_⟩
  · intro dst src hdN hsN hU hsU hS
    unfold CopySymmetricRowMajor
    rw [hdN, hsN]
    rw [if_neg (by omega), if_neg (not_not_intro hU), if_neg (by omega)]
    rcases hsU with h | h <;> rw [h]
    · rw [if_pos rfl]
      refine ⟨_, rfl, fun k => ?_⟩
      rw [show pairsUpper 0 = [] from rfl]
      rfl
    · rw [if_neg (by decide), if_pos rfl]
      refine ⟨_, rfl, fun k => ?_⟩
      rw [show pairsLower 0 = [] from rfl]
      rfl
  · intro L ul a lda h
    unfold Implementation.Dpotrf
    rw [if_neg (by omega), if_neg (by omega), if_pos rfl]
  · intro L ul a lda h
    unfold Implementation.Dpotrf
    rw [if_neg (by omega), if_neg (by omega), if_neg (by omega)]
  · intro dst src hdN hsN hU hsU hsize
    unfold CopySymmetricRowMajor
    rw [hdN, hsN, hsU]
    rw [if_neg (by omega), if_neg (not_not_intro (hsU ▸ hU)), if_neg (by omega),
      if_pos rfl]
    refine ⟨_, rfl, ?_⟩
    rw [show pairsUpper 1 = [(0, 0)] from rfl]
    simp [writeList, Store.set]

/-- Witness for C9: the amended theorem applied at concrete inputs. -/
theorem C9_small_n_witness :
    (∃ res, CopySymmetricRowMajor ⟨0, 1, ⟨0, fun _ => 0⟩, blas.Upper⟩
        ⟨0, 1, ⟨0, fun _ => 0⟩, blas.Upper⟩ = .ok res ∧
      res.Data.val 0 = (⟨0, fun _ => (0 : F)⟩ : Store).val 0) ∧
    Implementation.Dpotrf modelLapacke blas.Upper 0 ⟨0, fun _ => 0⟩ 0 =
      .ok (⟨0, fun _ => 0⟩, true) ∧
    Implementation.Dpotrf modelLapacke blas.Upper 1 ⟨1, fun _ => 4⟩ 1 =
      .ok (modelLapacke.dpotrf blas.Upper 1 ⟨1, fun _ => 4⟩ 1) ∧
    (∃ res, CopySymmetricRowMajor ⟨1, 2, ⟨2, fun _ => 7⟩, blas.Upper⟩
        ⟨1, 1, ⟨1, fun _ => 6⟩, blas.Upper⟩ = .ok res ∧
      res.Data.val 0 = (⟨1, fun _ => (6 : F)⟩ : Store).val 0) := by
  refine ⟨?_, ?_, ?_, ?_⟩
  · obtain ⟨res, he, hk⟩ := C9_small_n.1 ⟨0, 1, ⟨0, fun _ => 0⟩, blas.Upper⟩
      ⟨0, 1, ⟨0, fun _ => 0⟩, blas.Upper⟩ rfl rfl rfl (Or.inl rfl) (by decide)
    exact ⟨res, he, hk 0⟩
  · exact C9_small_n.2.1 modelLapacke blas.Upper ⟨0, fun _ => 0⟩ 0 (by omega)
  · exact C9_small_n.2.2.1 modelLapacke blas.Upper ⟨1, fun _ => 4⟩ 1 (by omega)
  · obtain ⟨res, he, hk⟩ := C9_small_n.2.2.2 ⟨1, 2, ⟨2, fun _ => 7⟩, blas.Upper⟩
      ⟨1, 1, ⟨1, fun _ => 6⟩, blas.Upper⟩ rfl rfl rfl rfl (by decide)
    exact ⟨res, he, hk⟩

theorem colGeneral_eq (r c s : Int) (da : Store) (hr : 0 ≤ r) (hc : 0 ≤ c) :
    NewColMajorGeneralFrom ⟨r, c, s, da⟩ = .ok ⟨r, c, r,
      writeList ⟨(r * c).toNat, fun _ => 0⟩ ((pairsAll r c).map
        (fun p => (p.1 + p.2 * r, da.val (p.1 * s + p.2))))⟩ := by
  have hrc : 0 ≤ r * c := mul_nonneg hr hc
  have htn : ((r * c).toNat : Int) = r * c := Int.toNat_of_nonneg hrc
  have hm : mkSlice (r * c) = .ok ⟨(r * c).toNat, fun _ => 0⟩ := by
    unfold mkSlice
    rw [if_neg (by omega)]
  have h2 : (c - 1) * r + r = r * c := by ring
  simp only [NewColMajorGeneralFrom, blas64.General.From]
  rw [bindE_ok _ hm]
  rw [if_neg (by simp), if_neg (by rw [htn, h2]; exact lt_irrefl _)]

theorem rowGeneral_eq (r c S : Int) (dd : Store) (hr : 0 ≤ r) (hc : 0 ≤ c) :
    NewRowMajorGeneralFrom ⟨r, c, S, dd⟩ = .ok ⟨r, c, c,
      writeList ⟨(r * c).toNat, fun _ => 0⟩ ((pairsAll c r).map
        (fun p => (p.1 + p.2 * c, dd.val (p.1 * S + p.2))))⟩ := by
  have hrc : 0 ≤ r * c := mul_nonneg hr hc
  have htn : ((r * c).toNat : Int) = r * c := Int.toNat_of_nonneg hrc
  have hm : mkSlice (r * c) = .ok ⟨(r * c).toNat, fun _ => 0⟩ := by
    unfold mkSlice
    rw [if_neg (by omega)]
  have h2 : (r - 1) * c + c = r * c := by ring
  simp only [NewRowMajorGeneralFrom, blas64.General.To]
  rw [bindE_ok _ hm]
  rw [if_neg (by simp), if_neg (by rw [htn, h2]; exact lt_irrefl _)]

theorem colSymmetric_eq (N s : Int) (da : Store) (u : blas.Uplo)
    (hu : u = blas.Upper ∨ u = blas.Lower) :
    NewColMajorSymmetricFrom ⟨N, s, da, u⟩ = .ok ⟨N, N,
      writeList ⟨(N * N).toNat, fun _ => 0⟩
        (((if u = blas.Upper then pairsUpper N else pairsLower N)).map
          (fun p => (p.1 + p.2 * N, da.val (p.1 * s + p.2)))), u⟩ := by
  have hm : mkSlice (N * N) = .ok ⟨(N * N).toNat, fun _ => 0⟩ := by
    unfold mkSlice
    rw [if_neg (by nlinarith [mul_self_nonneg N])]
  simp only [NewColMajorSymmetricFrom, blas64.Symmetric.From]
  rw [bindE_ok _ hm]
  rcases hu with h | h <;> rw [h]
  · rw [if_pos rfl, if_pos rfl]
  · rw [if_neg (by decide), if_pos rfl, if_neg (by decide)]

theorem rowSymmetric_eq (N S : Int) (dd : Store) (u : blas.Uplo)
    (hu : u = blas.Upper ∨ u = blas.Lower) :
    NewRowMajorSymmetricFrom ⟨N, S, dd, u⟩ = .ok ⟨N, N,
      writeList ⟨(N * N).toNat, fun _ => 0⟩
        (((if u = blas.Upper then pairsUpper N else pairsLower N)).map
          (fun p => (p.1 * N + p.2, dd.val (p.1 + p.2 * S)))), u⟩ := by
  have hm : mkSlice (N * N) = .ok ⟨(N * N).toNat, fun _ => 0⟩ := by
    unfold mkSlice
    rw [if_neg (by nlinarith [mul_self_nonneg N])]
  simp only [NewRowMajorSymmetricFrom, blas64.Symmetric.To]
  rw [bindE_ok _ hm]
  rcases hu with h | h <;> rw [h]
  · rw [if_pos rfl, if_pos rfl]
  · rw [if_neg (by decide), if_pos rfl, if_neg (by decide)]

theorem colTriangular_eq (N s : Int) (da : Store) (u : blas.Uplo) (dg : blas.Diag)
    (hu : u = blas.Upper ∨ u = blas.Lower ∨ u = blas.All) :
    NewColMajorTriangularFrom ⟨N, s, da, u, dg⟩ = .ok ⟨N, N,
      writeList ⟨(N * N).toNat, fun _ => 0⟩
        (((if u = blas.Upper then pairsUpper N
           else if u = blas.Lower then pairsLower N else pairsAll N N)).map
          (fun p => (p.1 + p.2 * N, da.val (p.1 * s + p.2)))), u, dg⟩ := by
  have hm : mkSlice (N * N) = .ok ⟨(N * N).toNat, fun _ => 0⟩ := by
    unfold mkSlice
    rw [if_neg (by nlinarith [mul_self_nonneg N])]
  simp only [NewColMajorTriangularFrom, blas64.Triangular.From]
  rw [bindE_ok _ hm]
  rcases hu with h | h | h <;> rw [h]
  · rw [if_pos rfl, if_pos rfl]
  · rw [if_neg (by decide), if_pos rfl, if_neg (by decide), if_pos rfl]
  · rw [if_neg (by decide), if_neg (by decide), if_pos rfl,
      if_neg (by decide), if_neg (by decide)]

theorem rowTriangular_eq (N S : Int) (dd : Store) (u : blas.Uplo) (dg : blas.Diag)
    (hu : u = blas.Upper ∨ u = blas.Lower ∨ u = blas.All) :
    NewRowMajorTriangularFrom ⟨N, S, dd, u, dg⟩ = .ok ⟨N, N,
      writeList ⟨(N * N).toNat, fun _ => 0⟩
        (((if u = blas.Upper then pairsUpper N
           else if u = blas.Lower then pairsLower N else pairsAll N N)).map
          (fun p => (p.1 * N + p.2, dd.val (p.1 + p.2 * S)))), u, dg⟩ := by
  have hm : mkSlice (N * N) = .ok ⟨(N * N).toNat, fun _ => 0⟩ := by
    unfold mkSlice
    rw [if_neg (by nlinarith [mul_self_nonneg N])]
  simp only [NewRowMajorTriangularFrom, blas64.Triangular.To]
  rw [bindE_ok _ hm]
  rcases hu with h | h | h <;> rw [h]
  · rw [if_pos rfl, if_pos rfl]
  · rw [if_neg (by decide), if_pos rfl, if_neg (by decide), if_pos rfl]
  · rw [if_neg (by decide), if_neg (by decide), if_pos rfl,
      if_neg (by decide), if_neg (by decide)]

theorem fromAll_val (d src : Store) (r c S sa : Int) (hS : r ≤ S) (i j : Int)
    (hij : (0 ≤ i ∧ i < r) ∧ (0 ≤ j ∧ j < c)) :
    (writeList d ((pairsAll r c).map
      (fun p => (p.1 + p.2 * S, src.val (p.1 * sa + p.2))))).val (i + j * S)
      = src.val (i * sa + j) := by
  refine writes_val d _ (fun p => p.1 + p.2 * S) (fun p => src.val (p.1 * sa + p.2))
    (keysNodupCol S _ (pairsAll_nodup r c) ?_) (i, j) (mem_pairsAll.mpr hij)
  intro p hp
  have := mem_pairsAll.mp hp
  omega

theorem fromUpper_val (d src : Store) (n S sa : Int) (hS : n ≤ S) (i j : Int)
    (hij : 0 ≤ i ∧ i ≤ j ∧ j < n) :
    (writeList d ((pairsUpper n).map
      (fun p => (p.1 + p.2 * S, src.val (p.1 * sa + p.2))))).val (i + j * S)
      = src.val (i * sa + j) := by
  refine writes_val d _ (fun p => p.1 + p.2 * S) (fun p => src.val (p.1 * sa + p.2))
    (keysNodupCol S _ (pairsUpper_nodup n) ?_) (i, j) (mem_pairsUpper.mpr hij)
  intro p hp
  have := mem_pairsUpper.mp hp
  omega

theorem fromLower_val (d src : Store) (n S sa : Int) (hS : n ≤ S) (i j : Int)
    (hij : 0 ≤ j ∧ j ≤ i ∧ i < n) :
    (writeList d ((pairsLower n).map
      (fun p => (p.1 + p.2 * S, src.val (p.1 * sa + p.2))))).val (i + j * S)
      = src.val (i * sa + j) := by
  refine writes_val d _ (fun p => p.1 + p.2 * S) (fun p => src.val (p.1 * sa + p.2))
    (keysNodupCol S _ (pairsLower_nodup n) ?_) (i, j) (mem_pairsLower.mpr hij)
  intro p hp
  have := mem_pairsLower.mp hp
  omega

theorem toUpper_val (d src : Store) (n S sa : Int) (hS : n ≤ S) (i j : Int)
    (hij : 0 ≤ i ∧ i ≤ j ∧ j < n) :
    (writeList d ((pairsUpper n).map
      (fun p => (p.1 * S + p.2, src.val (p.1 + p.2 * sa))))).val (i * S + j)
      = src.val (i + j * sa) := by
  refine writes_val d _ (fun p => p.1 * S + p.2) (fun p => src.val (p.1 + p.2 * sa))
    (keysNodupRow S _ (pairsUpper_nodup n) ?_) (i, j) (mem_pairsUpper.mpr hij)
  intro p hp
  have := mem_pairsUpper.mp hp
  omega

theorem toLower_val (d src : Store) (n S sa : Int) (hS : n ≤ S) (i j : Int)
    (hij : 0 ≤ j ∧ j ≤ i ∧ i < n) :
    (writeList d ((pairsLower n).map
      (fun p => (p.1 * S + p.2, src.val (p.1 + p.2 * sa))))).val (i * S + j)
      = src.val (i + j * sa) := by
  refine writes_val d _ (fun p => p.1 * S + p.2) (fun p => src.val (p.1 + p.2 * sa))
    (keysNodupRow S _ (pairsLower_nodup n) ?_) (i, j) (mem_pairsLower.mpr hij)
  intro p hp
  have := mem_pairsLower.mp hp
  omega

theorem toAll_val (d src : Store) (r c S sa : Int) (hS : c ≤ S) (i j : Int)
    (hij : (0 ≤ i ∧ i < r) ∧ (0 ≤ j ∧ j < c)) :
    (writeList d ((pairsAll r c).map
      (fun p => (p.1 * S + p.2, src.val (p.1 + p.2 * sa))))).val (i * S + j)
      = src.val (i + j * sa) := by
  refine writes_val d _ (fun p => p.1 * S + p.2) (fun p => src.val (p.1 + p.2 * sa))
    (keysNodupRow S _ (pairsAll_nodup r c) ?_) (i, j) (mem_pairsAll.mpr hij)
  intro p hp
  have := mem_pairsAll.mp hp
  omega

theorem copyRowUpper_val (d src : Store) (n S sa : Int) (hS : n ≤ S) (i j : Int)
    (hij : 0 ≤ i ∧ i ≤ j ∧ j < n) :
    (writeList d ((pairsUpper n).map
      (fun p => (p.1 * S + p.2, src.val (p.1 * sa + p.2))))).val (i * S + j)
      = src.val (i * sa + j) := by
  refine writes_val d _ (fun p => p.1 * S + p.2) (fun p => src.val (p.1 * sa + p.2))
    (keysNodupRow S _ (pairsUpper_nodup n) ?_) (i, j) (mem_pairsUpper.mpr hij)
  intro p hp
  have := mem_pairsUpper.mp hp
  omega

theorem copyRowLower_val (d src : Store) (n S sa : Int) (hS : n ≤ S) (i j : Int)
    (hij : 0 ≤ j ∧ j ≤ i ∧ i < n) :
    (writeList d ((pairsLower n).map
      (fun p => (p.1 * S + p.2, src.val (p.1 * sa + p.2))))).val (i * S + j)
      = src.val (i * sa + j) := by
  refine writes_val d _ (fun p => p.1 * S + p.2) (fun p => src.val (p.1 * sa + p.2))
    (keysNodupRow S _ (pairsLower_nodup n) ?_) (i, j) (mem_pairsLower.mpr hij)
  intro p hp
  have := mem_pairsLower.mp hp
  omega

theorem copyRowAll_val (d src : Store) (r c S sa : Int) (hS : c ≤ S) (i j : Int)
    (hij : (0 ≤ i ∧ i < r) ∧ (0 ≤ j ∧ j < c)) :
    (writeList d ((pairsAll r c).map
      (fun p => (p.1 * S + p.2, src.val (p.1 * sa + p.2))))).val (i * S + j)
      = src.val (i * sa + j) := by
  refine writes_val d _ (fun p => p.1 * S + p.2) (fun p => src.val (p.1 * sa + p.2))
    (keysNodupRow S _ (pairsAll_nodup r c) ?_) (i, j) (mem_pairsAll.mpr hij)
  intro p hp
  have := mem_pairsAll.mp hp
  omega

theorem copyColUpper_val (d src : Store) (n S sa : Int) (hS : n ≤ S) (i j : Int)
    (hij : 0 ≤ i ∧ i ≤ j ∧ j < n) :
    (writeList d ((pairsUpper n).map
      (fun p => (p.1 + p.2 * S, src.val (p.1 + p.2 * sa))))).val (i + j * S)
      = src.val (i + j * sa) := by
  refine writes_val d _ (fun p => p.1 + p.2 * S) (fun p => src.val (p.1 + p.2 * sa))
    (keysNodupCol S _ (pairsUpper_nodup n) ?_) (i, j) (mem_pairsUpper.mpr hij)
  intro p hp
  have := mem_pairsUpper.mp hp
  omega

theorem copyColLower_val (d src : Store) (n S sa : Int) (hS : n ≤ S) (i j : Int)
    (hij : 0 ≤ j ∧ j ≤ i ∧ i < n) :
    (writeList d ((pairsLower n).map
      (fun p => (p.1 + p.2 * S, src.val (p.1 + p.2 * sa))))).val (i + j * S)
      = src.val (i + j * sa) := by
  refine writes_val d _ (fun p => p.1 + p.2 * S) (fun p => src.val (p.1 + p.2 * sa))
    (keysNodupCol S _ (pairsLower_nodup n) ?_) (i, j) (mem_pairsLower.mpr hij)
  intro p hp
  have := mem_pairsLower.mp hp
  omega

theorem copyColAll_val (d src : Store) (r c S sa : Int) (hS : r ≤ S) (i j : Int)
    (hij : (0 ≤ i ∧ i < r) ∧ (0 ≤ j ∧ j < c)) :
    (writeList d ((pairsAll r c).map
      (fun p => (p.1 + p.2 * S, src.val (p.1 + p.2 * sa))))).val (i + j * S)
      = src.val (i + j * sa) := by
  refine writes_val d _ (fun p => p.1 + p.2 * S) (fun p => src.val (p.1 + p.2 * sa))
    (keysNodupCol S _ (pairsAll_nodup r c) ?_) (i, j) (mem_pairsAll.mpr hij)
  intro p hp
  have := mem_pairsAll.mp hp
  omega

theorem general_roundtrip (r c s : Int) (da : Store) (hr : 0 ≤ r) (hc : 0 ≤ c) :
    ∃ col t, NewColMajorGeneralFrom ⟨r, c, s, da⟩ = .ok col ∧
      NewRowMajorGeneralFrom col = .ok t ∧ t.Rows = r ∧ t.Cols = c ∧ t.Stride = c ∧
      ∀ i j, 0 ≤ i → i < r → 0 ≤ j → j < c →
        t.Data.val (i * c + j) = da.val (i * s + j) := by
  refine ⟨_, _, colGeneral_eq r c s da hr hc, rowGeneral_eq r c r _ hr hc,
    rfl, rfl, rfl, ?_⟩
  intro i j hi0 hir hj0 hjc
  rw [show (i * c + j : Int) = j + i * c from by ring]
  rw [fromAll_val _ _ c r c r le_rfl j i ⟨⟨hj0, hjc⟩, ⟨hi0, hir⟩⟩]
  rw [show (j * r + i : Int) = i + j * r from by ring]
  exact fromAll_val _ _ r c r s le_rfl i j ⟨⟨hi0, hir⟩, ⟨hj0, hjc⟩⟩

theorem symmetric_roundtrip (N s : Int) (da : Store) (u : blas.Uplo)
    (hu : u = blas.Upper ∨ u = blas.Lower) :
    ∃ col t, NewColMajorSymmetricFrom ⟨N, s, da, u⟩ = .ok col ∧
      NewRowMajorSymmetricFrom col = .ok t ∧ t.N = N ∧ t.Stride = N ∧ t.Uplo = u ∧
      ∀ i j, ((u = blas.Upper ∧ 0 ≤ i ∧ i ≤ j ∧ j < N) ∨
              (u = blas.Lower ∧ 0 ≤ j ∧ j ≤ i ∧ i < N)) →
        t.Data.val (i * N + j) = da.val (i * s + j) := by
  refine ⟨_, _, colSymmetric_eq N s da u hu, rowSymmetric_eq N N _ u hu,
    rfl, rfl, rfl, ?_⟩
  intro i j hij
  rcases hu with h | h <;> subst h
  · rw [if_pos rfl]
    rcases hij with ⟨_, hij⟩ | ⟨hbad, _⟩
    · rw [toUpper_val _ _ N N N le_rfl i j hij]
      exact fromUpper_val _ _ N N s le_rfl i j hij
    · exact absurd hbad (by decide)
  · rw [if_neg (show blas.Lower ≠ blas.Upper from by decide)]
    rcases hij with ⟨hbad, _⟩ | ⟨_, hij⟩
    · exact absurd hbad (by decide)
    · rw [toLower_val _ _ N N N le_rfl i j hij]
      exact fromLower_val _ _ N N s le_rfl i j hij

theorem triangular_roundtrip (N s : Int) (da : Store) (u : blas.Uplo) (dg : blas.Diag)
    (hu : u = blas.Upper ∨ u = blas.Lower ∨ u = blas.All) :
    ∃ col t, NewColMajorTriangularFrom ⟨N, s, da, u, dg⟩ = .ok col ∧
      NewRowMajorTriangularFrom col = .ok t ∧ t.N = N ∧ t.Stride = N ∧
      t.Uplo = u ∧ t.Diag = dg ∧
      ∀ i j, ((u = blas.Upper ∧ 0 ≤ i ∧ i ≤ j ∧ j < N) ∨
              (u = blas.Lower ∧ 0 ≤ j ∧ j ≤ i ∧ i < N) ∨
              (u = blas.All ∧ (0 ≤ i ∧ i < N) ∧ (0 ≤ j ∧ j < N))) →
        t.Data.val (i * N + j) = da.val (i * s + j) := by
  refine ⟨_, _, colTriangular_eq N s da u dg hu, rowTriangular_eq N N _ u dg hu,
    rfl, rfl, rfl, rfl, ?_⟩
  intro i j hij
  rcases hu with h | h | h <;> subst h
  · rw [if_pos rfl]
    rcases hij with ⟨_, hij⟩ | ⟨hbad, _⟩ | ⟨hbad, _⟩
    · rw [toUpper_val _ _ N N N le_rfl i j hij]
      exact fromUpper_val _ _ N N s le_rfl i j hij
    · exact absurd hbad (by decide)
    · exact absurd hbad (by decide)
  · rw [if_neg (show blas.Lower ≠ blas.Upper from by decide), if_pos rfl]
    rcases hij with ⟨hbad, _⟩ | ⟨_, hij⟩ | ⟨hbad, _⟩
    · exact absurd hbad (by decide)
    · rw [toLower_val _ _ N N N le_rfl i j hij]
      exact fromLower_val _ _ N N s le_rfl i j hij
    · exact absurd hbad (by decide)
  · rw [if_neg (show blas.All ≠ blas.Upper from by decide),
      if_neg (show blas.All ≠ blas.Lower from by decide)]
    rcases hij with ⟨hbad, _⟩ | ⟨hbad, _⟩ | ⟨_, hij⟩
    · exact absurd hbad (by decide)
    · exact absurd hbad (by decide)
    · rw [toAll_val _ _ N N N N le_rfl i j hij]
      exact fromAll_val _ _ N N N s le_rfl i j hij

/-- Claim C2: converting a well-formed row-major General, Symmetric or
Triangular descriptor to column-major and back reproduces the original
values exactly on every cell of the semantically valid half (all cells for
General and for Triangular with Uplo = All; the stored triangle for
Symmetric/Triangular with Upper or Lower), with the dimensions, uplo and
diag of the original. -/
theorem C2_roundtrip_conversion :
    (∀ (r c s : Int) (da : Store), 0 ≤ r → 0 ≤ c →
      ∃ col t, NewColMajorGeneralFrom ⟨r, c, s, da⟩ = .ok col ∧
        NewRowMajorGeneralFrom col = .ok t ∧ t.Rows = r ∧ t.Cols = c ∧ t.Stride = c ∧
        ∀ i j, 0 ≤ i → i < r → 0 ≤ j → j < c →
          t.Data.val (i * c + j) = da.val (i * s + j)) ∧
    (∀ (N s : Int) (da : Store) (u : blas.Uplo),
      u = blas.Upper ∨ u = blas.Lower →
      ∃ col t, NewColMajorSymmetricFrom ⟨N, s, da, u⟩ = .ok col ∧
        NewRowMajorSymmetricFrom col = .ok t ∧ t.N = N ∧ t.Stride = N ∧ t.Uplo = u ∧
        ∀ i j, ((u = blas.Upper ∧ 0 ≤ i ∧ i ≤ j ∧ j < N) ∨
                (u = blas.Lower ∧ 0 ≤ j ∧ j ≤ i ∧ i < N)) →
          t.Data.val (i * N + j) = da.val (i * s + j)) ∧
    (∀ (N s : Int) (da : Store) (u : blas.Uplo) (dg : blas.Diag),
      u = blas.Upper ∨ u = blas.Lower ∨ u = blas.All →
      ∃ col t, NewColMajorTriangularFrom ⟨N, s, da, u, dg⟩ = .ok col ∧
        NewRowMajorTriangularFrom col = .ok t ∧ t.N = N ∧ t.Stride = N ∧
        t.Uplo = u ∧ t.Diag = dg ∧
        ∀ i j, ((u = blas.Upper ∧ 0 ≤ i ∧ i ≤ j ∧ j < N) ∨
                (u = blas.Lower ∧ 0 ≤ j ∧ j ≤ i ∧ i < N) ∨
                (u = blas.All ∧ (0 ≤ i ∧ i < N) ∧ (0 ≤ j ∧ j < N))) →
          t.Data.val (i * N + j) = da.val (i * s + j)) :=
  ⟨fun r c s da hr hc => general_roundtrip r c s da hr hc,
   fun N s da u hu => symmetric_roundtrip N s da u hu,
   fun N s da u dg hu => triangular_roundtrip N s da u dg hu⟩

/-- Witness for C2: the spec's own 3×3 end-to-end scenario (section 8.7):
the row-major matrix {{1,2,3},{4,5,6},{7,8,9}} with stride 3 converts to
column-major and back, reproducing each original cell. -/
theorem C2_roundtrip_conversion_witness :
    (∃ col t, NewColMajorGeneralFrom ⟨3, 3, 3, ⟨9, fun k => (k : F)⟩⟩ = .ok col ∧
      NewRowMajorGeneralFrom col = .ok t ∧
      t.Data.val (1 * 3 + 2) = (⟨9, fun k => (k : F)⟩ : Store).val (1 * 3 + 2)) ∧
    (∃ col t, NewColMajorSymmetricFrom ⟨3, 3, ⟨9, fun k => (k : F)⟩, blas.Upper⟩ =
        .ok col ∧ NewRowMajorSymmetricFrom col = .ok t ∧
      t.Data.val (0 * 3 + 2) = (⟨9, fun k => (k : F)⟩ : Store).val (0 * 3 + 2)) ∧
    (∃ col t, NewColMajorTriangularFrom
          ⟨3, 3, ⟨9, fun k => (k : F)⟩, blas.Lower, blas.Unit⟩ = .ok col ∧
      NewRowMajorTriangularFrom col = .ok t ∧ t.Diag = blas.Unit ∧
      t.Data.val (2 * 3 + 1) = (⟨9, fun k => (k : F)⟩ : Store).val (2 * 3 + 1)) := by
  refine ⟨?_, ?_, ?_⟩
  · obtain ⟨col, t, h1, h2, _, _, _, hv⟩ := C2_roundtrip_conversion.1 3 3 3
      ⟨9, fun k => (k : F)⟩ (by omega) (by omega)
    exact ⟨col, t, h1, h2, hv 1 2 (by omega) (by omega) (by omega) (by omega)⟩
  · obtain ⟨col, t, h1, h2, _, _, _, hv⟩ := C2_roundtrip_conversion.2.1 3 3
      ⟨9, fun k => (k : F)⟩ blas.Upper (Or.inl rfl)
    exact ⟨col, t, h1, h2, hv 0 2 (Or.inl ⟨rfl, by omega, by omega, by omega⟩)⟩
  · obtain ⟨col, t, h1, h2, _, _, _, hd, hv⟩ := C2_roundtrip_conversion.2.2 3 3
      ⟨9, fun k => (k : F)⟩ blas.Lower blas.Unit (Or.inr (Or.inl rfl))
    exact ⟨col, t, h1, h2, hd, hv 2 1 (Or.inr (Or.inl ⟨rfl, by omega, by omega, by omega⟩))⟩

/-- The cells of the declared valid half of an N×N half-stored matrix. -/
def halfSet (u : blas.Uplo) (N i j : Int) : Prop :=
  (u = blas.Upper ∧ 0 ≤ i ∧ i ≤ j ∧ j < N) ∨
  (u = blas.Lower ∧ 0 ≤ j ∧ j ≤ i ∧ i < N) ∨
  (u = blas.All ∧ 0 ≤ i ∧ i < N ∧ 0 ≤ j ∧ j < N)

theorem copySymmetricRowMajor_eq (dst src : blas64.Symmetric)
    (hN : dst.N = src.N) (hU : dst.Uplo = src.Uplo)
    (hsz : (dst.N - 1) * dst.Stride + dst.N ≤ (dst.Data.size : Int))
    (hu : src.Uplo = blas.Upper ∨ src.Uplo = blas.Lower) :
    CopySymmetricRowMajor dst src = .ok { dst with Data := (writeList dst.Data
      (((if src.Uplo = blas.Upper then pairsUpper src.N else pairsLower src.N)).map
        (fun p => (p.1 * dst.Stride + p.2, src.Data.val (p.1 * src.Stride + p.2))))) } := by
  unfold CopySymmetricRowMajor
  rw [if_neg (not_not_intro hN), if_neg (not_not_intro hU), if_neg (by omega)]
  rcases hu with h | h <;> rw [h]
  · rw [if_pos rfl, if_pos rfl]
  · rw [if_neg (by decide), if_pos rfl, if_neg (by decide)]

theorem copySymmetricColMajor_eq (dst src : blas64.Symmetric)
    (hN : dst.N = src.N) (hU : dst.Uplo = src.Uplo)
    (hsz : (dst.N - 1) * dst.Stride + dst.N ≤ (dst.Data.size : Int))
    (hu : src.Uplo = blas.Upper ∨ src.Uplo = blas.Lower) :
    CopySymmetricColMajor dst src = .ok { dst with Data := (writeList dst.Data
      (((if src.Uplo = blas.Upper then pairsUpper src.N else pairsLower src.N)).map
        (fun p => (p.1 + p.2 * dst.Stride, src.Data.val (p.1 + p.2 * src.Stride))))) } := by
  unfold CopySymmetricColMajor
  rw [if_neg (not_not_intro hN), if_neg (not_not_intro hU), if_neg (by omega)]
  rcases hu with h | h <;> rw [h]
  · rw [if_pos rfl, if_pos rfl]
  · rw [if_neg (by decide), if_pos rfl, if_neg (by decide)]

theorem copyTriangularRowMajor_eq (dst src : blas64.Triangular)
    (hN : dst.N = src.N) (hD : dst.Diag = src.Diag) (hU : dst.Uplo = src.Uplo)
    (hsz : (dst.N - 1) * dst.Stride + dst.N ≤ (dst.Data.size : Int))
    (hu : src.Uplo = blas.Upper ∨ src.Uplo = blas.Lower ∨ src.Uplo = blas.All) :
    CopyTriangularRowMajor dst src = .ok { dst with Data := (writeList dst.Data
      (((if src.Uplo = blas.Upper then pairsUpper src.N
         else if src.Uplo = blas.Lower then pairsLower src.N
         else pairsAll src.N src.N)).map
        (fun p => (p.1 * dst.Stride + p.2, src.Data.val (p.1 * src.Stride + p.2))))) } := by
  unfold CopyTriangularRowMajor
  rw [if_neg (not_not_intro hN), if_neg (not_not_intro hD), if_neg (not_not_intro hU),
    if_neg (by omega)]
  rcases hu with h | h | h <;> rw [h]
  · rw [if_pos rfl, if_pos rfl]
  · rw [if_neg (by decide), if_pos rfl, if_neg (by decide), if_pos rfl]
  · rw [if_neg (by decide), if_neg (by decide), if_pos rfl, if_neg (by decide),
      if_neg (by decide)]

theorem copyTriangularColMajor_eq (dst src : blas64.Triangular)
    (hN : dst.N = src.N) (hD : dst.Diag = src.Diag) (hU : dst.Uplo = src.Uplo)
    (hsz : (dst.N - 1) * dst.Stride + dst.N ≤ (dst.Data.size : Int))
    (hu : src.Uplo = blas.Upper ∨ src.Uplo = blas.Lower ∨ src.Uplo = blas.All) :
    CopyTriangularColMajor dst src = .ok { dst with Data := (writeList dst.Data
      (((if src.Uplo = blas.Upper then pairsUpper src.N
         else if src.Uplo = blas.Lower then pairsLower src.N
         else pairsAll src.N src.N)).map
        (fun p => (p.1 + p.2 * dst.Stride, src.Data.val (p.1 + p.2 * src.Stride))))) } := by
  unfold CopyTriangularColMajor
  rw [if_neg (not_not_intro hN), if_neg (not_not_intro hD), if_neg (not_not_intro hU),
    if_neg (by omega)]
  rcases hu with h | h | h <;> rw [h]
  · rw [if_pos rfl, if_pos rfl]
  · rw [if_neg (by decide), if_pos rfl, if_neg (by decide), if_pos rfl]
  · rw [if_neg (by decide), if_neg (by decide), if_pos rfl, if_neg (by decide),
      if_neg (by decide)]

theorem symmetricFrom_eq (t a : blas64.Symmetric)
    (hu : a.Uplo = blas.Upper ∨ a.Uplo = blas.Lower) :
    blas64.Symmetric.From t a = .ok { t with Data := (writeList t.Data
      (((if a.Uplo = blas.Upper then pairsUpper a.N else pairsLower a.N)).map
        (fun p => (p.1 + p.2 * t.Stride, a.Data.val (p.1 * a.Stride + p.2))))) } := by
  unfold blas64.Symmetric.From
  rcases hu with h | h <;> rw [h]
  · rw [if_pos rfl, if_pos rfl]
  · rw [if_neg (by decide), if_pos rfl, if_neg (by decide)]

theorem symmetricTo_eq (a t : blas64.Symmetric)
    (hu : a.Uplo = blas.Upper ∨ a.Uplo = blas.Lower) :
    blas64.Symmetric.To a t = .ok { t with Data := (writeList t.Data
      (((if a.Uplo = blas.Upper then pairsUpper a.N else pairsLower a.N)).map
        (fun p => (p.1 * t.Stride + p.2, a.Data.val (p.1 + p.2 * a.Stride))))) } := by
  unfold blas64.Symmetric.To
  rcases hu with h | h <;> rw [h]
  · rw [if_pos rfl, if_pos rfl]
  · rw [if_neg (by decide), if_pos rfl, if_neg (by decide)]

theorem triangularFrom_eq (t a : blas64.Triangular)
    (hu : a.Uplo = blas.Upper ∨ a.Uplo = blas.Lower ∨ a.Uplo = blas.All) :
    blas64.Triangular.From t a = .ok { t with Data := (writeList t.Data
      (((if a.Uplo = blas.Upper then pairsUpper a.N
         else if a.Uplo = blas.Lower then pairsLower a.N
         else pairsAll a.N a.N)).map
        (fun p => (p.1 + p.2 * t.Stride, a.Data.val (p.1 * a.Stride + p.2))))) } := by
  unfold blas64.Triangular.From
  rcases hu with h | h | h <;> rw [h]
  · rw [if_pos rfl, if_pos rfl]
  · rw [if_neg (by decide), if_pos rfl, if_neg (by decide), if_pos rfl]
  · rw [if_neg (by decide), if_neg (by decide), if_pos rfl, if_neg (by decide),
      if_neg (by decide)]

theorem triangularTo_eq (a t : blas64.Triangular)
    (hu : a.Uplo = blas.Upper ∨ a.Uplo = blas.Lower ∨ a.Uplo = blas.All) :
    blas64.Triangular.To a t = .ok { t with Data := (writeList t.Data
      (((if a.Uplo = blas.Upper then pairsUpper a.N
         else if a.Uplo = blas.Lower then pairsLower a.N
         else pairsAll a.N a.N)).map
        (fun p => (p.1 * t.Stride + p.2, a.Data.val (p.1 + p.2 * a.Stride))))) } := by
  unfold blas64.Triangular.To
  rcases hu with h | h | h <;> rw [h]
  · rw [if_pos rfl, if_pos rfl]
  · rw [if_neg (by decide), if_pos rfl, if_neg (by decide), if_pos rfl]
  · rw [if_neg (by decide), if_neg (by decide), if_pos rfl, if_neg (by decide),
      if_neg (by decide)]

theorem copySymmetricRowMajor_frame (dst src : blas64.Symmetric)
    (hN : dst.N = src.N) (hU : dst.Uplo = src.Uplo)
    (hsz : (dst.N - 1) * dst.Stride + dst.N ≤ (dst.Data.size : Int))
    (hu : src.Uplo = blas.Upper ∨ src.Uplo = blas.Lower) :
    ∃ res, CopySymmetricRowMajor dst src = .ok res ∧
      ∀ k, (∀ i j, halfSet src.Uplo src.N i j → k ≠ i * dst.Stride + j) →
        res.Data.val k = dst.Data.val k := by
  refine ⟨_, copySymmetricRowMajor_eq dst src hN hU hsz hu, ?_⟩
  intro k hk
  rcases hu with h | h
  · rw [h, if_pos rfl]
    refine writes_frame dst.Data (pairsUpper src.N) (fun p => p.1 * dst.Stride + p.2)
      (fun p => src.Data.val (p.1 * src.Stride + p.2)) k ?_
    intro p hp
    have hm := mem_pairsUpper.mp hp
    exact fun he => hk p.1 p.2 (Or.inl ⟨h, hm⟩) he.symm
  · rw [h, if_neg (by decide)]
    refine writes_frame dst.Data (pairsLower src.N) (fun p => p.1 * dst.Stride + p.2)
      (fun p => src.Data.val (p.1 * src.Stride + p.2)) k ?_
    intro p hp
    have hm := mem_pairsLower.mp hp
    exact fun he => hk p.1 p.2 (Or.inr (Or.inl ⟨h, hm⟩)) he.symm

theorem copySymmetricColMajor_frame (dst src : blas64.Symmetric)
    (hN : dst.N = src.N) (hU : dst.Uplo = src.Uplo)
    (hsz : (dst.N - 1) * dst.Stride + dst.N ≤ (dst.Data.size : Int))
    (hu : src.Uplo = blas.Upper ∨ src.Uplo = blas.Lower) :
    ∃ res, CopySymmetricColMajor dst src = .ok res ∧
      ∀ k, (∀ i j, halfSet src.Uplo src.N i j → k ≠ i + j * dst.Stride) →
        res.Data.val k = dst.Data.val k := by
  refine ⟨_, copySymmetricColMajor_eq dst src hN hU hsz hu, ?_⟩
  intro k hk
  rcases hu with h | h
  · rw [h, if_pos rfl]
    refine writes_frame dst.Data (pairsUpper src.N) (fun p => p.1 + p.2 * dst.Stride)
      (fun p => src.Data.val (p.1 + p.2 * src.Stride)) k ?_
    intro p hp
    have hm := mem_pairsUpper.mp hp
    exact fun he => hk p.1 p.2 (Or.inl ⟨h, hm⟩) he.symm
  · rw [h, if_neg (by decide)]
    refine writes_frame dst.Data (pairsLower src.N) (fun p => p.1 + p.2 * dst.Stride)
      (fun p => src.Data.val (p.1 + p.2 * src.Stride)) k ?_
    intro p hp
    have hm := mem_pairsLower.mp hp
    exact fun he => hk p.1 p.2 (Or.inr (Or.inl ⟨h, hm⟩)) he.symm

theorem copyTriangularRowMajor_frame (dst src : blas64.Triangular)
    (hN : dst.N = src.N) (hD : dst.Diag = src.Diag) (hU : dst.Uplo = src.Uplo)
    (hsz : (dst.N - 1) * dst.Stride + dst.N ≤ (dst.Data.size : Int))
    (hu : src.Uplo = blas.Upper ∨ src.Uplo = blas.Lower ∨ src.Uplo = blas.All) :
    ∃ res, CopyTriangularRowMajor dst src = .ok res ∧
      ∀ k, (∀ i j, halfSet src.Uplo src.N i j → k ≠ i * dst.Stride + j) →
        res.Data.val k = dst.Data.val k := by
  refine ⟨_, copyTriangularRowMajor_eq dst src hN hD hU hsz hu, ?_⟩
  intro k hk
  rcases hu with h | h | h
  · rw [h, if_pos rfl]
    refine writes_frame dst.Data (pairsUpper src.N) (fun p => p.1 * dst.Stride + p.2)
      (fun p => src.Data.val (p.1 * src.Stride + p.2)) k ?_
    intro p hp
    have hm := mem_pairsUpper.mp hp
    exact fun he => hk p.1 p.2 (Or.inl ⟨h, hm⟩) he.symm
  · rw [h, if_neg (by decide), if_pos rfl]
    refine writes_frame dst.Data (pairsLower src.N) (fun p => p.1 * dst.Stride + p.2)
      (fun p => src.Data.val (p.1 * src.Stride + p.2)) k ?_
    intro p hp
    have hm := mem_pairsLower.mp hp
    exact fun he => hk p.1 p.2 (Or.inr (Or.inl ⟨h, hm⟩)) he.symm
  · rw [h, if_neg (by decide), if_neg (by decide)]
    refine writes_frame dst.Data (pairsAll src.N src.N) (fun p => p.1 * dst.Stride + p.2)
      (fun p => src.Data.val (p.1 * src.Stride + p.2)) k ?_
    intro p hp
    have hm := mem_pairsAll.mp hp
    exact fun he => hk p.1 p.2
      (Or.inr (Or.inr ⟨h, hm.1.1, hm.1.2, hm.2.1, hm.2.2⟩)) he.symm

theorem copyTriangularColMajor_frame (dst src : blas64.Triangular)
    (hN : dst.N = src.N) (hD : dst.Diag = src.Diag) (hU : dst.Uplo = src.Uplo)
    (hsz : (dst.N - 1) * dst.Stride + dst.N ≤ (dst.Data.size : Int))
    (hu : src.Uplo = blas.Upper ∨ src.Uplo = blas.Lower ∨ src.Uplo = blas.All) :
    ∃ res, CopyTriangularColMajor dst src = .ok res ∧
      ∀ k, (∀ i j, halfSet src.Uplo src.N i j → k ≠ i + j * dst.Stride) →
        res.Data.val k = dst.Data.val k := by
  refine ⟨_, copyTriangularColMajor_eq dst src hN hD hU hsz hu, ?_⟩
  intro k hk
  rcases hu with h | h | h
  · rw [h, if_pos rfl]
    refine writes_frame dst.Data (pairsUpper src.N) (fun p => p.1 + p.2 * dst.Stride)
      (fun p => src.Data.val (p.1 + p.2 * src.Stride)) k ?_
    intro p hp
    have hm := mem_pairsUpper.mp hp
    exact fun he => hk p.1 p.2 (Or.inl ⟨h, hm⟩) he.symm
  · rw [h, if_neg (by decide), if_pos rfl]
    refine writes_frame dst.Data (pairsLower src.N) (fun p => p.1 + p.2 * dst.Stride)
      (fun p => src.Data.val (p.1 + p.2 * src.Stride)) k ?_
    intro p hp
    have hm := mem_pairsLower.mp hp
    exact fun he => hk p.1 p.2 (Or.inr (Or.inl ⟨h, hm⟩)) he.symm
  · rw [h, if_neg (by decide), if_neg (by decide)]
    refine writes_frame dst.Data (pairsAll src.N src.N) (fun p => p.1 + p.2 * dst.Stride)
      (fun p => src.Data.val (p.1 + p.2 * src.Stride)) k ?_
    intro p hp
    have hm := mem_pairsAll.mp hp
    exact fun he => hk p.1 p.2
      (Or.inr (Or.inr ⟨h, hm.1.1, hm.1.2, hm.2.1, hm.2.2⟩)) he.symm

theorem symmetricFrom_frame (t a : blas64.Symmetric)
    (hu : a.Uplo = blas.Upper ∨ a.Uplo = blas.Lower) :
    ∃ res, blas64.Symmetric.From t a = .ok res ∧
      ∀ k, (∀ i j, halfSet a.Uplo a.N i j → k ≠ i + j * t.Stride) →
        res.Data.val k = t.Data.val k := by
  refine ⟨_, symmetricFrom_eq t a hu, ?_⟩
  intro k hk
  rcases hu with h | h
  · rw [h, if_pos rfl]
    refine writes_frame t.Data (pairsUpper a.N) (fun p => p.1 + p.2 * t.Stride)
      (fun p => a.Data.val (p.1 * a.Stride + p.2)) k ?_
    intro p hp
    have hm := mem_pairsUpper.mp hp
    exact fun he => hk p.1 p.2 (Or.inl ⟨h, hm⟩) he.symm
  · rw [h, if_neg (by decide)]
    refine writes_frame t.Data (pairsLower a.N) (fun p => p.1 + p.2 * t.Stride)
      (fun p => a.Data.val (p.1 * a.Stride + p.2)) k ?_
    intro p hp
    have hm := mem_pairsLower.mp hp
    exact fun he => hk p.1 p.2 (Or.inr (Or.inl ⟨h, hm⟩)) he.symm

theorem symmetricTo_frame (a t : blas64.Symmetric)
    (hu : a.Uplo = blas.Upper ∨ a.Uplo = blas.Lower) :
    ∃ res, blas64.Symmetric.To a t = .ok res ∧
      ∀ k, (∀ i j, halfSet a.Uplo a.N i j → k ≠ i * t.Stride + j) →
        res.Data.val k = t.Data.val k := by
  refine ⟨_, symmetricTo_eq a t hu, ?_⟩
  intro k hk
  rcases hu with h | h
  · rw [h, if_pos rfl]
    refine writes_frame t.Data (pairsUpper a.N) (fun p => p.1 * t.Stride + p.2)
      (fun p => a.Data.val (p.1 + p.2 * a.Stride)) k ?_
    intro p hp
    have hm := mem_pairsUpper.mp hp
    exact fun he => hk p.1 p.2 (Or.inl ⟨h, hm⟩) he.symm
  · rw [h, if_neg (by decide)]
    refine writes_frame t.Data (pairsLower a.N) (fun p => p.1 * t.Stride + p.2)
      (fun p => a.Data.val (p.1 + p.2 * a.Stride)) k ?_
    intro p hp
    have hm := mem_pairsLower.mp hp
    exact fun he => hk p.1 p.2 (Or.inr (Or.inl ⟨h, hm⟩)) he.symm

theorem triangularFrom_frame (t a : blas64.Triangular)
    (hu : a.Uplo = blas.Upper ∨ a.Uplo = blas.Lower ∨ a.Uplo = blas.All) :
    ∃ res, blas64.Triangular.From t a = .ok res ∧
      ∀ k, (∀ i j, halfSet a.Uplo a.N i j → k ≠ i + j * t.Stride) →
        res.Data.val k = t.Data.val k := by
  refine ⟨_, triangularFrom_eq t a hu, ?_⟩
  intro k hk
  rcases hu with h | h | h
  · rw [h, if_pos rfl]
    refine writes_frame t.Data (pairsUpper a.N) (fun p => p.1 + p.2 * t.Stride)
      (fun p => a.Data.val (p.1 * a.Stride + p.2)) k ?_
    intro p hp
    have hm := mem_pairsUpper.mp hp
    exact fun he => hk p.1 p.2 (Or.inl ⟨h, hm⟩) he.symm
  · rw [h, if_neg (by decide), if_pos rfl]
    refine writes_frame t.Data (pairsLower a.N) (fun p => p.1 + p.2 * t.Stride)
      (fun p => a.Data.val (p.1 * a.Stride + p.2)) k ?_
    intro p hp
    have hm := mem_pairsLower.mp hp
    exact fun he => hk p.1 p.2 (Or.inr (Or.inl ⟨h, hm⟩)) he.symm
  · rw [h, if_neg (by decide), if_neg (by decide)]
    refine writes_frame t.Data (pairsAll a.N a.N) (fun p => p.1 + p.2 * t.Stride)
      (fun p => a.Data.val (p.1 * a.Stride + p.2)) k ?_
    intro p hp
    have hm := mem_pairsAll.mp hp
    exact fun he => hk p.1 p.2
      (Or.inr (Or.inr ⟨h, hm.1.1, hm.1.2, hm.2.1, hm.2.2⟩)) he.symm

theorem triangularTo_frame (a t : blas64.Triangular)
    (hu : a.Uplo = blas.Upper ∨ a.Uplo = blas.Lower ∨ a.Uplo = blas.All) :
    ∃ res, blas64.Triangular.To a t = .ok res ∧
      ∀ k, (∀ i j, halfSet a.Uplo a.N i j → k ≠ i * t.Stride + j) →
        res.Data.val k = t.Data.val k := by
  refine ⟨_, triangularTo_eq a t hu, ?_⟩
  intro k hk
  rcases hu with h | h | h
  · rw [h, if_pos rfl]
    refine writes_frame t.Data (pairsUpper a.N) (fun p => p.1 * t.Stride + p.2)
      (fun p => a.Data.val (p.1 + p.2 * a.Stride)) k ?_
    intro p hp
    have hm := mem_pairsUpper.mp hp
    exact fun he => hk p.1 p.2 (Or.inl ⟨h, hm⟩) he.symm
  · rw [h, if_neg (by decide), if_pos rfl]
    refine writes_frame t.Data (pairsLower a.N) (fun p => p.1 * t.Stride + p.2)
      (fun p => a.Data.val (p.1 + p.2 * a.Stride)) k ?_
    intro p hp
    have hm := mem_pairsLower.mp hp
    exact fun he => hk p.1 p.2 (Or.inr (Or.inl ⟨h, hm⟩)) he.symm
  · rw [h, if_neg (by decide), if_neg (by decide)]
    refine writes_frame t.Data (pairsAll a.N a.N) (fun p => p.1 * t.Stride + p.2)
      (fun p => a.Data.val (p.1 + p.2 * a.Stride)) k ?_
    intro p hp
    have hm := mem_pairsAll.mp hp
    exact fun he => hk p.1 p.2
      (Or.inr (Or.inr ⟨h, hm.1.1, hm.1.2, hm.2.1, hm.2.2⟩)) he.symm

/-- Claim C3: the symmetric/triangular copy and convert operations never
write a destination cell outside the declared valid half or extent: every
storage index that is not the image of a valid-half cell keeps its prior
(sentinel) value. -/
theorem C3_half_isolation :
    (∀ dst src : blas64.Symmetric, dst.N = src.N → dst.Uplo = src.Uplo →
      (dst.N - 1) * dst.Stride + dst.N ≤ (dst.Data.size : Int) →
      src.Uplo = blas.Upper ∨ src.Uplo = blas.Lower →
      ∃ res, CopySymmetricRowMajor dst src = .ok res ∧
        ∀ k, (∀ i j, halfSet src.Uplo src.N i j → k ≠ i * dst.Stride + j) →
          res.Data.val k = dst.Data.val k) ∧
    (∀ dst src : blas64.Symmetric, dst.N = src.N → dst.Uplo = src.Uplo →
      (dst.N - 1) * dst.Stride + dst.N ≤ (dst.Data.size : Int) →
      src.Uplo = blas.Upper ∨ src.Uplo = blas.Lower →
      ∃ res, CopySymmetricColMajor dst src = .ok res ∧
        ∀ k, (∀ i j, halfSet src.Uplo src.N i j → k ≠ i + j * dst.Stride) →
          res.Data.val k = dst.Data.val k) ∧
    (∀ dst src : blas64.Triangular, dst.N = src.N → dst.Diag = src.Diag →
      dst.Uplo = src.Uplo →
      (dst.N - 1) * dst.Stride + dst.N ≤ (dst.Data.size : Int) →
      src.Uplo = blas.Upper ∨ src.Uplo = blas.Lower ∨ src.Uplo = blas.All →
      ∃ res, CopyTriangularRowMajor dst src = .ok res ∧
        ∀ k, (∀ i j, halfSet src.Uplo src.N i j → k ≠ i * dst.Stride + j) →
          res.Data.val k = dst.Data.val k) ∧
    (∀ dst src : blas64.Triangular, dst.N = src.N → dst.Diag = src.Diag →
      dst.Uplo = src.Uplo →
      (dst.N - 1) * dst.Stride + dst.N ≤ (dst.Data.size : Int) →
      src.Uplo = blas.Upper ∨ src.Uplo = blas.Lower ∨ src.Uplo = blas.All →
      ∃ res, CopyTriangularColMajor dst src = .ok res ∧
        ∀ k, (∀ i j, halfSet src.Uplo src.N i j → k ≠ i + j * dst.Stride) →
          res.Data.val k = dst.Data.val k) ∧
    (∀ t a : blas64.Symmetric, a.Uplo = blas.Upper ∨ a.Uplo = blas.Lower →
      ∃ res, blas64.Symmetric.From t a = .ok res ∧
        ∀ k, (∀ i j, halfSet a.Uplo a.N i j → k ≠ i + j * t.Stride) →
          res.Data.val k = t.Data.val k) ∧
    (∀ a t : blas64.Symmetric, a.Uplo = blas.Upper ∨ a.Uplo = blas.Lower →
      ∃ res, blas64.Symmetric.To a t = .ok res ∧
        ∀ k, (∀ i j, halfSet a.Uplo a.N i j → k ≠ i * t.Stride + j) →
          res.Data.val k = t.Data.val k) ∧
    (∀ t a : blas64.Triangular,
      a.Uplo = blas.Upper ∨ a.Uplo = blas.Lower ∨ a.Uplo = blas.All →
      ∃ res, blas64.Triangular.From t a = .ok res ∧
        ∀ k, (∀ i j, halfSet a.Uplo a.N i j → k ≠ i + j * t.Stride) →
          res.Data.val k = t.Data.val k) ∧
    (∀ a t : blas64.Triangular,
      a.Uplo = blas.Upper ∨ a.Uplo = blas.Lower ∨ a.Uplo = blas.All →
      ∃ res, blas64.Triangular.To a t = .ok res ∧
        ∀ k, (∀ i j, halfSet a.Uplo a.N i j → k ≠ i * t.Stride + j) →
          res.Data.val k = t.Data.val k) :=
  ⟨fun dst src hN hU hsz hu => copySymmetricRowMajor_frame dst src hN hU hsz hu,
   fun dst src hN hU hsz hu => copySymmetricColMajor_frame dst src hN hU hsz hu,
   fun dst src hN hD hU hsz hu => copyTriangularRowMajor_frame dst src hN hD hU hsz hu,
   fun dst src hN hD hU hsz hu => copyTriangularColMajor_frame dst src hN hD hU hsz hu,
   fun t a hu => symmetricFrom_frame t a hu,
   fun a t hu => symmetricTo_frame a t hu,
   fun t a hu => triangularFrom_frame t a hu,
   fun a t hu => triangularTo_frame a t hu⟩

/-- Witness for C3: each operation applied to 1×1 inputs with stride-2
destination pre-filled with the sentinel 9; index 1 lies outside the valid
half image and keeps the sentinel. -/
theorem C3_half_isolation_witness :
    (∃ res, CopySymmetricRowMajor ⟨1, 2, ⟨2, fun _ => 9⟩, blas.Upper⟩
        ⟨1, 1, ⟨1, fun _ => 5⟩, blas.Upper⟩ = .ok res ∧
      res.Data.val 1 = (⟨2, fun _ => (9 : F)⟩ : Store).val 1) ∧
    (∃ res, CopySymmetricColMajor ⟨1, 2, ⟨2, fun _ => 9⟩, blas.Lower⟩
        ⟨1, 1, ⟨1, fun _ => 5⟩, blas.Lower⟩ = .ok res ∧
      res.Data.val 1 = (⟨2, fun _ => (9 : F)⟩ : Store).val 1) ∧
    (∃ res, CopyTriangularRowMajor ⟨1, 2, ⟨2, fun _ => 9⟩, blas.All, blas.NonUnit⟩
        ⟨1, 1, ⟨1, fun _ => 5⟩, blas.All, blas.NonUnit⟩ = .ok res ∧
      res.Data.val 1 = (⟨2, fun _ => (9 : F)⟩ : Store).val 1) ∧
    (∃ res, CopyTriangularColMajor ⟨1, 2, ⟨2, fun _ => 9⟩, blas.Upper, blas.Unit⟩
        ⟨1, 1, ⟨1, fun _ => 5⟩, blas.Upper, blas.Unit⟩ = .ok res ∧
      res.Data.val 1 = (⟨2, fun _ => (9 : F)⟩ : Store).val 1) ∧
    (∃ res, blas64.Symmetric.From ⟨1, 2, ⟨2, fun _ => 9⟩, blas.Upper⟩
        ⟨1, 1, ⟨1, fun _ => 5⟩, blas.Upper⟩ = .ok res ∧
      res.Data.val 1 = (⟨2, fun _ => (9 : F)⟩ : Store).val 1) ∧
    (∃ res, blas64.Symmetric.To ⟨1, 1, ⟨1, fun _ => 5⟩, blas.Lower⟩
        ⟨1, 2, ⟨2, fun _ => 9⟩, blas.Lower⟩ = .ok res ∧
      res.Data.val 1 = (⟨2, fun _ => (9 : F)⟩ : Store).val 1) ∧
    (∃ res, blas64.Triangular.From ⟨1, 2, ⟨2, fun _ => 9⟩, blas.All, blas.NonUnit⟩
        ⟨1, 1, ⟨1, fun _ => 5⟩, blas.All, blas.NonUnit⟩ = .ok res ∧
      res.Data.val 1 = (⟨2, fun _ => (9 : F)⟩ : Store).val 1) ∧
    (∃ res, blas64.Triangular.To ⟨1, 1, ⟨1, fun _ => 5⟩, blas.Upper, blas.Unit⟩
        ⟨1, 2, ⟨2, fun _ => 9⟩, blas.Upper, blas.Unit⟩ = .ok res ∧
      res.Data.val 1 = (⟨2, fun _ => (9 : F)⟩ : Store).val 1) := by
  have hkU : ∀ S : Int, S = 2 → ∀ i j : Int, halfSet blas.Upper 1 i j →
      (1 : Int) ≠ i * S + j := by
    intro S hS i j hij
    subst hS
    rcases hij with ⟨_, h⟩ | ⟨hb, _⟩ | ⟨hb, _⟩
    · omega
    · exact absurd hb (by decide)
    · exact absurd hb (by decide)
  have hkUc : ∀ S : Int, S = 2 → ∀ i j : Int, halfSet blas.Upper 1 i j →
      (1 : Int) ≠ i + j * S := by
    intro S hS i j hij
    subst hS
    rcases hij with ⟨_, h⟩ | ⟨hb, _⟩ | ⟨hb, _⟩
    · omega
    · exact absurd hb (by decide)
    · exact absurd hb (by decide)
  have hkL : ∀ S : Int, S = 2 → ∀ i j : Int, halfSet blas.Lower 1 i j →
      (1 : Int) ≠ i * S + j := by
    intro S hS i j hij
    subst hS
    rcases hij with ⟨hb, _⟩ | ⟨_, h⟩ | ⟨hb, _⟩
    · exact absurd hb (by decide)
    · omega
    · exact absurd hb (by decide)
  have hkLc : ∀ S : Int, S = 2 → ∀ i j : Int, halfSet blas.Lower 1 i j →
      (1 : Int) ≠ i + j * S := by
    intro S hS i j hij
    subst hS
    rcases hij with ⟨hb, _⟩ | ⟨_, h⟩ | ⟨hb, _⟩
    · exact absurd hb (by decide)
    · omega
    · exact absurd hb (by decide)
  have hkA : ∀ S : Int, S = 2 → ∀ i j : Int, halfSet blas.All 1 i j →
      (1 : Int) ≠ i * S + j := by
    intro S hS i j hij
    subst hS
    rcases hij with ⟨hb, _⟩ | ⟨hb, _⟩ | ⟨_, h⟩
    · exact absurd hb (by decide)
    · exact absurd hb (by decide)
    · omega
  have hkAc : ∀ S : Int, S = 2 → ∀ i j : Int, halfSet blas.All 1 i j →
      (1 : Int) ≠ i + j * S := by
    intro S hS i j hij
    subst hS
    rcases hij with ⟨hb, _⟩ | ⟨hb, _⟩ | ⟨_, h⟩
    · exact absurd hb (by decide)
    · exact absurd hb (by decide)
    · omega
  refine ⟨?_, ?_, ?_, ?_, ?_, ?_, ?_, ?_⟩
  · obtain ⟨res, he, hv⟩ := C3_half_isolation.1 ⟨1, 2, ⟨2, fun _ => 9⟩, blas.Upper⟩
      ⟨1, 1, ⟨1, fun _ => 5⟩, blas.Upper⟩ rfl rfl (by decide) (Or.inl rfl)
    exact ⟨res, he, hv 1 (hkU 2 rfl)⟩
  · obtain ⟨res, he, hv⟩ := C3_half_isolation.2.1 ⟨1, 2, ⟨2, fun _ => 9⟩, blas.Lower⟩
      ⟨1, 1, ⟨1, fun _ => 5⟩, blas.Lower⟩ rfl rfl (by decide) (Or.inr rfl)
    exact ⟨res, he, hv 1 (hkLc 2 rfl)⟩
  · obtain ⟨res, he, hv⟩ := C3_half_isolation.2.2.1
      ⟨1, 2, ⟨2, fun _ => 9⟩, blas.All, blas.NonUnit⟩
      ⟨1, 1, ⟨1, fun _ => 5⟩, blas.All, blas.NonUnit⟩ rfl rfl rfl (by decide)
      (Or.inr (Or.inr rfl))
    exact ⟨res, he, hv 1 (hkA 2 rfl)⟩
  · obtain ⟨res, he, hv⟩ := C3_half_isolation.2.2.2.1
      ⟨1, 2, ⟨2, fun _ => 9⟩, blas.Upper, blas.Unit⟩
      ⟨1, 1, ⟨1, fun _ => 5⟩, blas.Upper, blas.Unit⟩ rfl rfl rfl (by decide)
      (Or.inl rfl)
    exact ⟨res, he, hv 1 (hkUc 2 rfl)⟩
  · obtain ⟨res, he, hv⟩ := C3_half_isolation.2.2.2.2.1
      ⟨1, 2, ⟨2, fun _ => 9⟩, blas.Upper⟩ ⟨1, 1, ⟨1, fun _ => 5⟩, blas.Upper⟩
      (Or.inl rfl)
    exact ⟨res, he, hv 1 (hkUc 2 rfl)⟩
  · obtain ⟨res, he, hv⟩ := C3_half_isolation.2.2.2.2.2.1
      ⟨1, 1, ⟨1, fun _ => 5⟩, blas.Lower⟩ ⟨1, 2, ⟨2, fun _ => 9⟩, blas.Lower⟩
      (Or.inr rfl)
    exact ⟨res, he, hv 1 (hkL 2 rfl)⟩
  · obtain ⟨res, he, hv⟩ := C3_half_isolation.2.2.2.2.2.2.1
      ⟨1, 2, ⟨2, fun _ => 9⟩, blas.All, blas.NonUnit⟩
      ⟨1, 1, ⟨1, fun _ => 5⟩, blas.All, blas.NonUnit⟩ (Or.inr (Or.inr rfl))
    exact ⟨res, he, hv 1 (hkAc 2 rfl)⟩
  · obtain ⟨res, he, hv⟩ := C3_half_isolation.2.2.2.2.2.2.2
      ⟨1, 1, ⟨1, fun _ => 5⟩, blas.Upper, blas.Unit⟩
      ⟨1, 2, ⟨2, fun _ => 9⟩, blas.Upper, blas.Unit⟩ (Or.inl rfl)
    exact ⟨res, he, hv 1 (hkU 2 rfl)⟩

/-- Claim C8: the triangular copies move exactly the same storage cells
whether Diag is Unit or NonUnit: a Diag mismatch between dst and src
panics, matched Diag values never change the written data, and the
diagonal storage elements are always copied, even when the diagonal is
logically implicit (Diag = Unit). -/
theorem C8_triangular_diag :
    (∀ dst src : blas64.Triangular, dst.N = src.N → dst.Diag ≠ src.Diag →
      CopyTriangularRowMajor dst src = .error "fortran: mismatched BLAS diag") ∧
    (∀ dst src : blas64.Triangular, dst.N = src.N → dst.Diag ≠ src.Diag →
      CopyTriangularColMajor dst src = .error "fortran: mismatched BLAS diag") ∧
    (∀ (dst src : blas64.Triangular) (d1 d2 : blas.Diag), dst.N = src.N →
      dst.Uplo = src.Uplo →
      (dst.N - 1) * dst.Stride + dst.N ≤ (dst.Data.size : Int) →
      src.Uplo = blas.Upper ∨ src.Uplo = blas.Lower ∨ src.Uplo = blas.All →
      ∃ r1 r2,
        CopyTriangularRowMajor { dst with Diag := d1 } { src with Diag := d1 } =
          .ok r1 ∧
        CopyTriangularRowMajor { dst with Diag := d2 } { src with Diag := d2 } =
          .ok r2 ∧ r1.Data = r2.Data) ∧
    (∀ (dst src : blas64.Triangular) (d1 d2 : blas.Diag), dst.N = src.N →
      dst.Uplo = src.Uplo →
      (dst.N - 1) * dst.Stride + dst.N ≤ (dst.Data.size : Int) →
      src.Uplo = blas.Upper ∨ src.Uplo = blas.Lower ∨ src.Uplo = blas.All →
      ∃ r1 r2,
        CopyTriangularColMajor { dst with Diag := d1 } { src with Diag := d1 } =
          .ok r1 ∧
        CopyTriangularColMajor { dst with Diag := d2 } { src with Diag := d2 } =
          .ok r2 ∧ r1.Data = r2.Data) ∧
    (∀ dst src : blas64.Triangular, dst.N = src.N → dst.Diag = src.Diag →
      dst.Uplo = src.Uplo →
      (dst.N - 1) * dst.Stride + dst.N ≤ (dst.Data.size : Int) →
      src.N ≤ dst.Stride →
      src.Uplo = blas.Upper ∨ src.Uplo = blas.Lower →
      ∃ res, CopyTriangularRowMajor dst src = .ok res ∧
        ∀ i, 0 ≤ i → i < src.N →
          res.Data.val (i * dst.Stride + i) = src.Data.val (i * src.Stride + i)) ∧
    (∀ dst src : blas64.Triangular, dst.N = src.N → dst.Diag = src.Diag →
      dst.Uplo = src.Uplo →
      (dst.N - 1) * dst.Stride + dst.N ≤ (dst.Data.size : Int) →
      src.N ≤ dst.Stride →
      src.Uplo = blas.Upper ∨ src.Uplo = blas.Lower →
      ∃ res, CopyTriangularColMajor dst src = .ok res ∧
        ∀ i, 0 ≤ i → i < src.N →
          res.Data.val (i + i * dst.Stride) = src.Data.val (i + i * src.Stride)) := by
  refine ⟨?_, ?_, ?_, ?_, ?_, ?_⟩
  · intro dst src hN hD
    unfold CopyTriangularRowMajor
    rw [if_neg (not_not_intro hN), if_pos hD]
  · intro dst src hN hD
    unfold CopyTriangularColMajor
    rw [if_neg (not_not_intro hN), if_pos hD]
  · intro dst src d1 d2 hN hU hsz hu
    exact ⟨_, _, copyTriangularRowMajor_eq _ _ hN rfl hU hsz hu,
      copyTriangularRowMajor_eq _ _ hN rfl hU hsz hu, rfl⟩
  · intro dst src d1 d2 hN hU hsz hu
    exact ⟨_, _, copyTriangularColMajor_eq _ _ hN rfl hU hsz hu,
      copyTriangularColMajor_eq _ _ hN rfl hU hsz hu, rfl⟩
  · intro dst src hN hD hU hsz hS hu
    refine ⟨_, copyTriangularRowMajor_eq dst src hN hD hU hsz
      (by rcases hu with h | h
          · exact Or.inl h
          · exact Or.inr (Or.inl h)), ?_⟩
    intro i h0 hiN
    rcases hu with h | h
    · rw [h, if_pos rfl]
      exact copyRowUpper_val dst.Data src.Data src.N dst.Stride src.Stride hS i i
        ⟨h0, le_rfl, hiN⟩
    · rw [h, if_neg (by decide), if_pos rfl]
      exact copyRowLower_val dst.Data src.Data src.N dst.Stride src.Stride hS i i
        ⟨h0, le_rfl, hiN⟩
  · intro dst src hN hD hU hsz hS hu
    refine ⟨_, copyTriangularColMajor_eq dst src hN hD hU hsz
      (by rcases hu with h | h
          · exact Or.inl h
          · exact Or.inr (Or.inl h)), ?_⟩
    intro i h0 hiN
    rcases hu with h | h
    · rw [h, if_pos rfl]
      exact copyColUpper_val dst.Data src.Data src.N dst.Stride src.Stride hS i i
        ⟨h0, le_rfl, hiN⟩
    · rw [h, if_neg (by decide), if_pos rfl]
      exact copyColLower_val dst.Data src.Data src.N dst.Stride src.Stride hS i i
        ⟨h0, le_rfl, hiN⟩

/-- Witness for C8: the theorem applied at 1×1 inputs; the diagonal cell is
copied with Diag = Unit, a Unit/NonUnit mismatch panics, and swapping both
Diag values leaves the copied data identical. -/
theorem C8_triangular_diag_witness :
    CopyTriangularRowMajor ⟨1, 1, ⟨1, fun _ => 0⟩, blas.Upper, blas.Unit⟩
      ⟨1, 1, ⟨1, fun _ => 5⟩, blas.Upper, blas.NonUnit⟩ =
      .error "fortran: mismatched BLAS diag" ∧
    CopyTriangularColMajor ⟨1, 1, ⟨1, fun _ => 0⟩, blas.Upper, blas.NonUnit⟩
      ⟨1, 1, ⟨1, fun _ => 5⟩, blas.Upper, blas.Unit⟩ =
      .error "fortran: mismatched BLAS diag" ∧
    (∃ r1 r2,
      CopyTriangularRowMajor ⟨1, 1, ⟨1, fun _ => 0⟩, blas.Upper, blas.Unit⟩
        ⟨1, 1, ⟨1, fun _ => 5⟩, blas.Upper, blas.Unit⟩ = .ok r1 ∧
      CopyTriangularRowMajor ⟨1, 1, ⟨1, fun _ => 0⟩, blas.Upper, blas.NonUnit⟩
        ⟨1, 1, ⟨1, fun _ => 5⟩, blas.Upper, blas.NonUnit⟩ = .ok r2 ∧
      r1.Data = r2.Data) ∧
    (∃ res, CopyTriangularRowMajor ⟨1, 1, ⟨1, fun _ => 0⟩, blas.Lower, blas.Unit⟩
        ⟨1, 1, ⟨1, fun _ => 5⟩, blas.Lower, blas.Unit⟩ = .ok res ∧
      res.Data.val (0 * 1 + 0) = (⟨1, fun _ => (5 : F)⟩ : Store).val (0 * 1 + 0)) ∧
    (∃ res, CopyTriangularColMajor ⟨1, 1, ⟨1, fun _ => 0⟩, blas.Upper, blas.Unit⟩
        ⟨1, 1, ⟨1, fun _ => 5⟩, blas.Upper, blas.Unit⟩ = .ok res ∧
      res.Data.val (0 + 0 * 1) = (⟨1, fun _ => (5 : F)⟩ : Store).val (0 + 0 * 1)) := by
  refine ⟨?_, ?_, ?_, ?_, ?_⟩
  · exact C8_triangular_diag.1 _ _ rfl (by decide)
  · exact C8_triangular_diag.2.1 _ _ rfl (by decide)
  · exact C8_triangular_diag.2.2.1 ⟨1, 1, ⟨1, fun _ => 0⟩, blas.Upper, blas.Unit⟩
      ⟨1, 1, ⟨1, fun _ => 5⟩, blas.Upper, blas.Unit⟩ blas.Unit blas.NonUnit rfl rfl
      (by decide) (Or.inl rfl)
  · obtain ⟨res, he, hv⟩ := C8_triangular_diag.2.2.2.2.1
      ⟨1, 1, ⟨1, fun _ => 0⟩, blas.Lower, blas.Unit⟩
      ⟨1, 1, ⟨1, fun _ => 5⟩, blas.Lower, blas.Unit⟩ rfl rfl rfl (by decide)
      (by decide) (Or.inr rfl)
    exact ⟨res, he, hv 0 (by omega) (by decide)⟩
  · obtain ⟨res, he, hv⟩ := C8_triangular_diag.2.2.2.2.2
      ⟨1, 1, ⟨1, fun _ => 0⟩, blas.Upper, blas.Unit⟩
      ⟨1, 1, ⟨1, fun _ => 5⟩, blas.Upper, blas.Unit⟩ rfl rfl rfl (by decide)
      (by decide) (Or.inl rfl)
    exact ⟨res, he, hv 0 (by omega) (by decide)⟩
